import Mathlib

/-!
# Verification of the madpmax Apps Script layer

A shallow embedding, in Lean 4, of the spreadsheet-side scripts of the
madpmax repository (`src/functions/appScript/*.ts` and the unnamed script
files): the minimum-asset validator of `changes_tracking.ts`, the dropdown
validation of `data_validation.ts`, the property-index maintenance of
`sheets_utils.ts`, and the Pub/Sub publish helper of `pubsub.ts`.

JavaScript objects that map string keys to values are modelled as
association lists that preserve insertion order, matching the enumeration
order of string keys in a JS object.  Property accesses that throw a
`TypeError` in JavaScript (reading a property of `undefined`) are modelled
in an `Except String` monad.
-/

namespace Madpmax

/-! ## JS object model: insertion-ordered association lists -/
/-- Lookup `obj[k]` on a JS object modelled as an assoc list: `none` is
JavaScript's `undefined`. -/
def jsFind {α : Type} : List (String × α) → String → Option α
  | [], _ => none
  | (k, v) :: rest, key => if k = key then some v else jsFind rest key

/-- Assignment `obj[k] = v` on a JS object: an existing key keeps its
position and gets the new value, a fresh key is appended at the end. -/
def jsSet {α : Type} : List (String × α) → String → α → List (String × α)
  | [], key, v => [(key, v)]
  | (k, w) :: rest, key, v =>
      if k = key then (k, v) :: rest else (k, w) :: jsSet rest key v

/-- `delete obj[k]` on a JS object: removes the key, preserving the order
of the other entries. -/
def jsDelete {α : Type} : List (String × α) → String → List (String × α)
  | [], _ => []
  | (k, v) :: rest, key => if k = key then rest else (k, v) :: jsDelete rest key

/-- Object spread `{...a, ...b}`: entries of `a` in order, keys of `b`
overriding values of shared keys in place and fresh keys appended. -/
def jsSpread {α : Type} (a b : List (String × α)) : List (String × α) :=
  b.foldl (fun acc kv => jsSet acc kv.1 kv.2) a

@[simp] theorem jsFind_nil {α : Type} (k : String) : jsFind ([] : List (String × α)) k = none := rfl

/-! ## Constants from `enums.ts` -/
namespace SHEET_NAMES

def CUSTOMERS : String := "CustomerList"

def CAMPAIGNS : String := "CampaignList"

def ASSET_GROUPS : String := "AssetGroupList"

def ASSETS : String := "Assets"

def SITELINKS : String := "Sitelinks"

def NEW_CAMPAIGNS : String := "NewCampaigns"

def NEW_ASSET_GROUPS : String := "NewAssetGroups"

end SHEET_NAMES

namespace REQUIRED_ASSETS

def HEADLINES : Nat := 3

def LONG_HEADLINES : Nat := 1

def DESCRIPTIONS : Nat := 2

def BUSINESS_NAME : Nat := 1

def MARKETING_IMAGE : Nat := 1

def SQUARE_IMAGE : Nat := 1

def LOGO : Nat := 1

end REQUIRED_ASSETS

namespace NEW_ASSET_GROUPS

def STATUS : Nat := 0

def ASSET_CHECK : Nat := 1

def ACCOUNT_NAME : Nat := 2

def CAMPAIGN_NAME : Nat := 3

def ASSET_GROUP_NAME : Nat := 4

def ASSET_GROUP_STATUS : Nat := 5

def FINAL_URL : Nat := 6

def MOBILE_URL : Nat := 7

def PATH1 : Nat := 8

def PATH2 : Nat := 9

def HEADLINE1 : Nat := 10

def HEADLINE2 : Nat := 11

def HEADLINE3 : Nat := 12

def DESCRIPTION1 : Nat := 13

def DESCRIPTION2 : Nat := 14

def LONG_HEADLINE : Nat := 15

def BUSINESS_NAME : Nat := 16

def MARKETING_IMAGE : Nat := 17

def SQUARE_IMAGE : Nat := 18

def LOGO : Nat := 19

end NEW_ASSET_GROUPS

namespace NEW_CAMPAIGNS

def STATUS : Nat := 0

def ACCOUNT_NAME : Nat := 1

def CAMPAIGN_NAME : Nat := 2

end NEW_CAMPAIGNS

namespace ASSETS

def STATUS : Nat := 0

def DELETE_OPTION : Nat := 1

def ACCOUNT_NAME : Nat := 2

def CAMPAIGN_NAME : Nat := 3

def ASSET_GROUP_NAME : Nat := 4

def TYPE : Nat := 5

end ASSETS

namespace ASSET_GROUP_LIST

def CUSTOMER_NAME : Nat := 0

def CUSTOMER_ID : Nat := 1

def CAMPAIGN_NAME : Nat := 2

def CAMPAIGN_ID : Nat := 3

def ASSET_GROUP_NAME : Nat := 4

def ASSET_GROUP_ID : Nat := 5

end ASSET_GROUP_LIST

namespace CAMPAIGN_LIST

def CUSTOMER_NAME : Nat := 0

def CUSTOMER_ID : Nat := 1

def CAMPAIGN_NAME : Nat := 2

def CAMPAIGN_ID : Nat := 3

end CAMPAIGN_LIST

namespace ROW_STATUS

def UPLOADED : String := "UPLOADED"

def ERROR : String := "ERROR"

end ROW_STATUS

namespace ASSET_TYPES

def HEADLINE : String := "HEADLINE"

def LONG_HEADLINE : String := "LONG_HEADLINE"

def DESCRIPTION : String := "DESCRIPTION"

def BUSINESS : String := "BUSINESS"

def IMAGE : String := "IMAGE"

def SQUARE_IMAGE : String := "SQUARE_IMAGE"

def LOGO : String := "LOGO"

end ASSET_TYPES

/-- Reading cell `i` of a sheet row.  `getDataRange().getValues()` returns a
rectangular array whose empty cells are `''`, so a missing index defaults to
the empty string. -/
def cellAt (row : List String) (i : Nat) : String := row.getD i ""

/-! ## `changes_tracking.ts`: the minimum-asset validator -/
/-- `assetCounter` from `changes_tracking.ts`: increments the counter when
the cell is non-empty. -/
def assetCounter (counter : Nat) (cellValue : String) : Nat :=
  if cellValue ≠ "" then counter + 1 else counter

/-- JavaScript `\w`: `[A-Za-z0-9_]`. -/
def jsWordChar (c : Char) : Bool :=
  (97 ≤ c.toNat && c.toNat ≤ 122) || (65 ≤ c.toNat && c.toNat ≤ 90) ||
    (48 ≤ c.toNat && c.toNat ≤ 57) || c.toNat == 95

/-- The character class `[-a-zA-Z0-9@:%._\+~#=]` of the URL regex in
`isValidURL`. -/
def urlBodyChar (c : Char) : Bool :=
  c == '-' || (97 ≤ c.toNat && c.toNat ≤ 122) || (65 ≤ c.toNat && c.toNat ≤ 90) ||
    (48 ≤ c.toNat && c.toNat ≤ 57) || c == '@' || c == ':' || c == '%' || c == '.' ||
    c == '_' || c == '+' || c == '~' || c == '#' || c == '='

/-- The trailing character class `[-a-zA-Z0-9@:%_\+.~#?&//=]` of the URL
regex in `isValidURL`. -/
def urlTrailChar (c : Char) : Bool :=
  c == '-' || (97 ≤ c.toNat && c.toNat ≤ 122) || (65 ≤ c.toNat && c.toNat ≤ 90) ||
    (48 ≤ c.toNat && c.toNat ≤ 57) || c == '@' || c == ':' || c == '%' || c == '_' ||
    c == '+' || c == '.' || c == '~' || c == '#' || c == '?' || c == '&' || c == '/' ||
    c == '='

/-- `[a-z]`. -/
def lowerAZ (c : Char) : Bool := 97 ≤ c.toNat && c.toNat ≤ 122

/-- JavaScript regex `.`: any character other than a line terminator. -/
def jsDotChar (c : Char) : Bool :=
  !(c == '\n' || c == '\r' || c.toNat == 0x2028 || c.toNat == 0x2029)

/-- After `[a-z]{2,6}` (whose last character is a word character) the regex
requires `\b` and then `[-a-zA-Z0-9@:%_\+.~#?&//=]*$`: the boundary holds
exactly when the rest is empty or starts with a non-word character, and the
trailing class must consume everything up to the end of the string. -/
def urlTailOk (l : List Char) : Bool :=
  (match l with
   | [] => true
   | c :: _ => !jsWordChar c) && l.all urlTrailChar

/-- Matches `[a-z]{2,6}\b[-a-zA-Z0-9@:%_\+.~#?&//=]*$` against `l`, trying
every repetition count the backtracking engine would try. -/
def matchTld (l : List Char) : Bool :=
  (List.range' 2 5).any fun k =>
    decide (k ≤ l.length) && (l.take k).all lowerAZ && urlTailOk (l.drop k)

/-- Matches `[-a-zA-Z0-9@:%._\+~#=]{2,256}\.` followed by the TLD part
against `l`, with `n` class characters already consumed: at each character
the engine may either close the repetition on a literal `.` (when the count
is in range) or consume one more class character. -/
def matchHost : Nat → List Char → Bool
  | _, [] => false
  | n, c :: rest =>
      (decide (2 ≤ n) && decide (n ≤ 256) && c == '.' && matchTld rest) ||
      (urlBodyChar c && decide (n < 256) && matchHost (n + 1) rest)

/-- `isValidURL` from `changes_tracking.ts`: the anchored regex
`^(http(s):\/\/.)[-a-zA-Z0-9@:%._\+~#=]{2,256}\.[a-z]{2,6}\b([-a-zA-Z0-9@:%_\+.~#?&//=]*)$`
applied to the whole string.  The `s` is not optional, so the literal
prefix is `https://`, followed by one `.`-matched character and the host,
dot, TLD and trailing parts. -/
def isValidURL (str : String) : Bool :=
  match str.data with
  | 'h' :: 't' :: 't' :: 'p' :: 's' :: ':' :: '/' :: '/' :: c :: rest =>
      jsDotChar c && matchHost 0 rest
  | _ => false

/-- The `{message, status}` pair threaded through `assetStatus`. -/
structure StatusResult where
  message : String
  status : Bool
  deriving Repr, DecidableEq

/-- `noValueError` for `ASSET_TYPES.HEADLINE`. -/
def headlineMissingLine : String :=
  "\n\tNot enough headlines assigned to the Asset Group (3 required)"

/-- `noValueError` for `ASSET_TYPES.LONG_HEADLINE`. -/
def longHeadlineMissingLine : String :=
  "\n\tNo long headlines assigned to the Asset Group (1 required)"

/-- `noValueError` for `ASSET_TYPES.DESCRIPTION`. -/
def descriptionMissingLine : String :=
  "\n\tNot enough descriptions assigned to the Asset Group (2 required)"

/-- `noValueError` for `ASSET_TYPES.BUSINESS`. -/
def businessMissingLine : String :=
  "\n\tNo business name assigned to the Asset Group. (1 required)"

/-- `noValueError` for `ASSET_TYPES.IMAGE`. -/
def imageMissingLine : String :=
  "\n\tNo marketing image assigned to the Asset Group. (1 required)"

/-- `noValueError` for `ASSET_TYPES.SQUARE_IMAGE`. -/
def squareImageMissingLine : String :=
  "\n\tNo square image assigned to the Asset Group. (1 required)"

/-- `noValueError` for `ASSET_TYPES.LOGO`. -/
def logoMissingLine : String := "\n\tNo logo assigned to the Asset Group. (1 required)"

/-- `urlError` for `ASSET_TYPES.IMAGE`. -/
def imageUrlLine : String := "\n\tMarketing Image contains an invalid URL"

/-- `urlError` for `ASSET_TYPES.SQUARE_IMAGE`. -/
def squareImageUrlLine : String := "\n\tSquare Image contains an invalid URL"

/-- `urlError` for `ASSET_TYPES.LOGO`. -/
def logoUrlLine : String := "\n\tLogo contains an invalid URL"

/-- `assetStatus` from `changes_tracking.ts`.  The `switch` on the asset
type chooses the `noValueError` text, the `urlError` text (non-empty only
for the three image types) and computes `validURL` (always `true` for the
text types).  `errorMssg` then collects `noValueError` only when `urlError`
is empty, and `urlError` only for a non-empty invalid value; the status
flips to `false` when the count is below the requirement or the URL is
invalid. -/
def assetStatus (assetValue : String) (assetCount : Nat) (assetRequirement : Nat)
    (st : StatusResult) (assetType : String) : StatusResult :=
  let triple : String × String × Bool :=
    if assetType = ASSET_TYPES.HEADLINE then (headlineMissingLine, "", true)
    else if assetType = ASSET_TYPES.LONG_HEADLINE then (longHeadlineMissingLine, "", true)
    else if assetType = ASSET_TYPES.DESCRIPTION then (descriptionMissingLine, "", true)
    else if assetType = ASSET_TYPES.BUSINESS then (businessMissingLine, "", true)
    else if assetType = ASSET_TYPES.IMAGE then
      (imageMissingLine, imageUrlLine, isValidURL assetValue)
    else if assetType = ASSET_TYPES.SQUARE_IMAGE then
      (squareImageMissingLine, squareImageUrlLine, isValidURL assetValue)
    else if assetType = ASSET_TYPES.LOGO then
      (logoMissingLine, logoUrlLine, isValidURL assetValue)
    else ("", "", true)
  let noValueError := triple.1
  let urlError := triple.2.1
  let validURL := triple.2.2
  let errorMssg :=
    (if noValueError ≠ "" ∧ urlError = "" then noValueError else "") ++
      (if validURL = false ∧ urlError ≠ "" ∧ assetValue ≠ "" then urlError else "")
  if assetCount < assetRequirement ∨ validURL = false then
    { status := false, message := st.message ++ errorMssg }
  else st

/-- The headline count accumulated by `checkMinimumAssets` over the three
headline cells of a row. -/
def headlineCount (row : List String) : Nat :=
  assetCounter
    (assetCounter (assetCounter 0 (cellAt row NEW_ASSET_GROUPS.HEADLINE1))
      (cellAt row NEW_ASSET_GROUPS.HEADLINE2))
    (cellAt row NEW_ASSET_GROUPS.HEADLINE3)

/-- The description count accumulated over the two description cells. -/
def descriptionCount (row : List String) : Nat :=
  assetCounter (assetCounter 0 (cellAt row NEW_ASSET_GROUPS.DESCRIPTION1))
    (cellAt row NEW_ASSET_GROUPS.DESCRIPTION2)

/-- The long-headline count. -/
def longHeadlineCount (row : List String) : Nat :=
  assetCounter 0 (cellAt row NEW_ASSET_GROUPS.LONG_HEADLINE)

/-- The business-name count. -/
def businessCount (row : List String) : Nat :=
  assetCounter 0 (cellAt row NEW_ASSET_GROUPS.BUSINESS_NAME)

/-- The marketing-image count. -/
def imageCount (row : List String) : Nat :=
  assetCounter 0 (cellAt row NEW_ASSET_GROUPS.MARKETING_IMAGE)

/-- The square-image count. -/
def squareImageCount (row : List String) : Nat :=
  assetCounter 0 (cellAt row NEW_ASSET_GROUPS.SQUARE_IMAGE)

/-- The logo count. -/
def logoCount (row : List String) : Nat :=
  assetCounter 0 (cellAt row NEW_ASSET_GROUPS.LOGO)

/-- The chain of seven `assetStatus` calls `checkMinimumAssets` applies to
one row, starting from `{message: '', status: true}`. -/
def processRowResult (row : List String) : StatusResult :=
  let r0 : StatusResult := { message := "", status := true }
  let r1 := assetStatus (cellAt row NEW_ASSET_GROUPS.HEADLINE1) (headlineCount row)
    REQUIRED_ASSETS.HEADLINES r0 ASSET_TYPES.HEADLINE
  let r2 := assetStatus (cellAt row NEW_ASSET_GROUPS.LONG_HEADLINE) (longHeadlineCount row)
    REQUIRED_ASSETS.LONG_HEADLINES r1 ASSET_TYPES.LONG_HEADLINE
  let r3 := assetStatus (cellAt row NEW_ASSET_GROUPS.DESCRIPTION1) (descriptionCount row)
    REQUIRED_ASSETS.DESCRIPTIONS r2 ASSET_TYPES.DESCRIPTION
  let r4 := assetStatus (cellAt row NEW_ASSET_GROUPS.BUSINESS_NAME) (businessCount row)
    REQUIRED_ASSETS.BUSINESS_NAME r3 ASSET_TYPES.BUSINESS
  let r5 := assetStatus (cellAt row NEW_ASSET_GROUPS.MARKETING_IMAGE) (imageCount row)
    REQUIRED_ASSETS.MARKETING_IMAGE r4 ASSET_TYPES.IMAGE
  let r6 := assetStatus (cellAt row NEW_ASSET_GROUPS.SQUARE_IMAGE) (squareImageCount row)
    REQUIRED_ASSETS.SQUARE_IMAGE r5 ASSET_TYPES.SQUARE_IMAGE
  let r7 := assetStatus (cellAt row NEW_ASSET_GROUPS.LOGO) (logoCount row)
    REQUIRED_ASSETS.LOGO r6 ASSET_TYPES.LOGO
  r7

/-- The message `checkMinimumAssets` writes for a row that reached the
validation: `'SUCCESS'` on success, otherwise the error header followed by
the accumulated diagnostics. -/
def rowMessage (row : List String) : String :=
  if (processRowResult row).status then "SUCCESS"
  else "ERROR: Asset requirements are not met:" ++ (processRowResult row).message

/-- The `setValue` call (1-based row, column, message) the body of
`checkMinimumAssets` performs for index `id`, or `none` when one of the
three `continue`s fires (already uploaded, an empty name cell, or a header
row `id < 5`). -/
def rowWrite (rows : List (List String)) (id : Nat) : Option (Nat × Nat × String) :=
  let row := rows.getD id []
  if cellAt row NEW_ASSET_GROUPS.STATUS = ROW_STATUS.UPLOADED then none
  else if cellAt row NEW_ASSET_GROUPS.ACCOUNT_NAME = "" ∨
      cellAt row NEW_ASSET_GROUPS.CAMPAIGN_NAME = "" ∨
      cellAt row NEW_ASSET_GROUPS.ASSET_GROUP_NAME = "" then none
  else if id < 5 then none
  else some (id + 1, 2, rowMessage row)

/-- `checkMinimumAssets` from `changes_tracking.ts`, as the ordered list of
`setValue` writes it performs over the data range of the NewAssetGroups
sheet. -/
def checkMinimumAssets (rows : List (List String)) : List (Nat × Nat × String) :=
  (List.range rows.length).filterMap (rowWrite rows)

/-! ### What `checkMinimumAssets` actually writes for a validated row -/
/-- The diagnostics accumulated over the seven `assetStatus` calls, in call
order: one "missing" line per text asset type whose count is below its
requirement, and one "invalid URL" line per image cell holding a non-empty
value the URL pattern rejects.  No line is produced for an *empty* image
cell, although an empty image cell does fail the row. -/
def errorLines (row : List String) : String :=
  (if headlineCount row < REQUIRED_ASSETS.HEADLINES then headlineMissingLine else "") ++
    (if longHeadlineCount row < REQUIRED_ASSETS.LONG_HEADLINES then longHeadlineMissingLine
      else "") ++
    (if descriptionCount row < REQUIRED_ASSETS.DESCRIPTIONS then descriptionMissingLine
      else "") ++
    (if businessCount row < REQUIRED_ASSETS.BUSINESS_NAME then businessMissingLine else "") ++
    (if isValidURL (cellAt row NEW_ASSET_GROUPS.MARKETING_IMAGE) = false ∧
        cellAt row NEW_ASSET_GROUPS.MARKETING_IMAGE ≠ "" then imageUrlLine else "") ++
    (if isValidURL (cellAt row NEW_ASSET_GROUPS.SQUARE_IMAGE) = false ∧
        cellAt row NEW_ASSET_GROUPS.SQUARE_IMAGE ≠ "" then squareImageUrlLine else "") ++
    (if isValidURL (cellAt row NEW_ASSET_GROUPS.LOGO) = false ∧
        cellAt row NEW_ASSET_GROUPS.LOGO ≠ "" then logoUrlLine else "")

/-- The row's counts meet every fixed minimum threshold of
`REQUIRED_ASSETS`. -/
def MeetsAllThresholds (row : List String) : Prop :=
  REQUIRED_ASSETS.HEADLINES ≤ headlineCount row ∧
    REQUIRED_ASSETS.LONG_HEADLINES ≤ longHeadlineCount row ∧
    REQUIRED_ASSETS.DESCRIPTIONS ≤ descriptionCount row ∧
    REQUIRED_ASSETS.BUSINESS_NAME ≤ businessCount row ∧
    REQUIRED_ASSETS.MARKETING_IMAGE ≤ imageCount row ∧
    REQUIRED_ASSETS.SQUARE_IMAGE ≤ squareImageCount row ∧
    REQUIRED_ASSETS.LOGO ≤ logoCount row

instance (row : List String) : Decidable (MeetsAllThresholds row) := by
  unfold MeetsAllThresholds; infer_instance

/-- All three image cells of the row hold values the URL pattern
accepts. -/
def ImagesValid (row : List String) : Prop :=
  isValidURL (cellAt row NEW_ASSET_GROUPS.MARKETING_IMAGE) = true ∧
    isValidURL (cellAt row NEW_ASSET_GROUPS.SQUARE_IMAGE) = true ∧
    isValidURL (cellAt row NEW_ASSET_GROUPS.LOGO) = true

instance (row : List String) : Decidable (ImagesValid row) := by
  unfold ImagesValid; infer_instance

/-! ### Concrete NewAssetGroups sheets used as witnesses -/
/-- A data row meeting every requirement: all text assets present, all
three image cells valid `https` URLs. -/
def goodRow : List String :=
  ["", "", "A", "B", "C", "", "", "", "", "", "h1", "h2", "h3", "d1", "d2", "lh", "biz",
    "https://example.com", "https://example.com", "https://example.com"]

/-- The same data row except that the three image cells hold the non-URL
value `notaurl`: every count still meets its threshold. -/
def badUrlRow : List String :=
  ["", "", "A", "B", "C", "", "", "", "", "", "h1", "h2", "h3", "d1", "d2", "lh", "biz",
    "notaurl", "notaurl", "notaurl"]

/-- Five header rows (indices 0-4), skipped by `id < 5`. -/
def headerRows : List (List String) := [[], [], [], [], []]

/-- A sheet whose only data row is `goodRow` at index 5. -/
def goodSheet : List (List String) := headerRows ++ [goodRow]

/-- A sheet whose only data row is `badUrlRow` at index 5. -/
def badUrlSheet : List (List String) := headerRows ++ [badUrlRow]

/-- A sheet with a single `'UPLOADED'` data row. -/
def uploadedSheet : List (List String) :=
  headerRows ++ [["UPLOADED", "x", "A", "B", "C"]]

/-! ## `data_validation.ts`: recursive dropdown validation

Both routines guard on the edited column, handle one row, and recurse on
`numRows - 1` while `numRows > 1`.  They are modelled as the list of row
numbers they visit (each visited row gets its data-validation rule set).
`assetDataValidation`'s recursive call passes its own arguments along
correctly.  `assetGroupDataValidation`'s recursive call is
`assetGroupDataValidation(spreadSheet, sheetName, row + 1, numRows - 1)` —
but the function's parameters are `(spreadSheet, column, row, numRows)`
and no `sheetName` is in scope anywhere in `data_validation.ts`, so in
JavaScript evaluating that argument throws a `ReferenceError` before the
call; the model records the visited rows and the error. -/
/-- `assetDataValidation` from `data_validation.ts`, as the list of rows it
visits.  The source recurses while `numRows > 1` with `numRows - 1`; the
three patterns below split off the `numRows ≤ 1` base cases of that
loop. -/
def assetDataValidation (column : Nat) : Nat → Nat → List Nat
  | row, 0 => if column ≤ ASSETS.ASSET_GROUP_NAME + 1 then [row] else []
  | row, 1 => if column ≤ ASSETS.ASSET_GROUP_NAME + 1 then [row] else []
  | row, n + 2 =>
      if column ≤ ASSETS.ASSET_GROUP_NAME + 1 then
        row :: assetDataValidation column (row + 1) (n + 1)
      else []

/-- `assetGroupDataValidation` from `data_validation.ts`: visits its row,
then — because the recursive call names the undeclared `sheetName` — every
invocation with `numRows > 1` stops with a `ReferenceError` after the
first row instead of recursing. -/
def assetGroupDataValidation (column row numRows : Nat) : List Nat × Option String :=
  if column ≤ NEW_ASSET_GROUPS.ASSET_GROUP_NAME + 1 then
    if 1 < numRows then ([row], some "ReferenceError: sheetName is not defined")
    else ([row], none)
  else ([], none)

/-! ## `changes_tracking.ts`: the `onEdit` dispatcher

The current `onEdit` switches on the edited sheet's name and implements
only one case: `SHEET_NAMES.NEW_ASSET_GROUPS` triggers
`checkMinimumAssets`; every other sheet falls to the (empty) `default`
branch — the source notes "More scenarios will be added with following
CLs". -/
/-- The helper routines an edit could dispatch to. -/
inductive Routine
  | checkMinimumAssetsCall
  | addNewCampaignCall
  | addNewAssetGroupsCall
  | assetDataValidationCall
  | assetGroupDataValidationCall
  deriving DecidableEq, Repr

/-- `onEdit` from `changes_tracking.ts`, as the triple of (routines
invoked, sheet writes performed, resulting stored property): the switch
invokes `checkMinimumAssets` on the NewAssetGroups sheet and nothing
otherwise, and nothing in the handler touches the property store. -/
def onEdit (sheetName : String) (newAssetGroupRows : List (List String))
    (propertyStore : Option String) :
    List Routine × List (Nat × Nat × String) × Option String :=
  if sheetName = SHEET_NAMES.NEW_ASSET_GROUPS then
    ([Routine.checkMinimumAssetsCall], checkMinimumAssets newAssetGroupRows, propertyStore)
  else ([], [], propertyStore)

/-! ## JSON persistence (`getProperty` / `setProperty` of `sheets_utils.ts`)

The property index is a JS object mapping customer names to objects
mapping campaign names to arrays of asset-group name strings.
`setProperty` stores `JSON.stringify(propertyObject)` in the document
properties; `getProperty` returns `JSON.parse(stored) || {}`.  The
stringifier below implements `JSON.stringify` for exactly this shape
(insertion-ordered keys, standard string escaping); the parser implements
the subset of `JSON.parse` that this shape produces (it is stricter than
`JSON.parse` — no whitespace, no other value kinds — which is irrelevant
for strings produced by the stringifier). -/
/-- A campaign → asset-group-name-list object. -/
abbrev CMap := List (String × List String)

/-- The customer → campaign → asset-group-name-list property object. -/
abbrev Index := List (String × CMap)

/-- Lowercase hex digit, as `JSON.stringify` emits in `\u00xx` escapes. -/
def hexDigit (n : Nat) : Char :=
  if n < 10 then Char.ofNat (48 + n) else Char.ofNat (87 + n)

/-- `JSON.stringify` escaping of one character: `"` and `\` get a
backslash, the named control escapes are used for backspace, tab, newline,
form feed and carriage return, any other control character becomes
`\u00xx`, and everything else is emitted as itself. -/
def jsonEscapeChar (c : Char) : List Char :=
  if c = '"' then ['\\', '"']
  else if c = '\\' then ['\\', '\\']
  else if c = '\x08' then ['\\', 'b']
  else if c = '\t' then ['\\', 't']
  else if c = '\n' then ['\\', 'n']
  else if c = '\x0c' then ['\\', 'f']
  else if c = '\r' then ['\\', 'r']
  else if c.toNat < 32 then ['\\', 'u', '0', '0', hexDigit (c.toNat / 16), hexDigit (c.toNat % 16)]
  else [c]

/-- A JSON string literal: quote, escaped characters, quote. -/
def encodeStringChars (s : String) : List Char :=
  '"' :: (s.data.flatMap jsonEscapeChar ++ ['"'])

/-- The comma-separated elements of a JSON array of strings. -/
def encodeElems : List String → List Char
  | [] => []
  | [x] => encodeStringChars x
  | x :: y :: xs => encodeStringChars x ++ ',' :: encodeElems (y :: xs)

/-- A JSON array of strings. -/
def encodeStringList (l : List String) : List Char :=
  '[' :: (encodeElems l ++ [']'])

/-- The comma-separated `"key":value` entries of a JSON object, the values
encoded by `encV`. -/
def encodeEntries {α : Type} (encV : α → List Char) : List (String × α) → List Char
  | [] => []
  | [p] => encodeStringChars p.1 ++ ':' :: encV p.2
  | p :: q :: ps => encodeStringChars p.1 ++ ':' :: encV p.2 ++ ',' :: encodeEntries encV (q :: ps)

/-- A JSON object with values encoded by `encV`. -/
def encodeObject {α : Type} (encV : α → List Char) (l : List (String × α)) : List Char :=
  '\x7b' :: (encodeEntries encV l ++ ['\x7d'])

/-- `JSON.stringify` of one campaign map. -/
def encodeCMapChars (m : CMap) : List Char := encodeObject encodeStringList m

/-- `JSON.stringify` of the whole property index. -/
def encodeIndexChars (idx : Index) : List Char := encodeObject encodeCMapChars idx

/-- `JSON.stringify(propertyObject)` as stored by `setProperty`. -/
def jsonStringifyIndex (idx : Index) : String := ⟨encodeIndexChars idx⟩

/-- One hex digit of a `\uXXXX` escape. -/
def parseHexDigit (c : Char) : Option Nat :=
  if 48 ≤ c.toNat ∧ c.toNat ≤ 57 then some (c.toNat - 48)
  else if 97 ≤ c.toNat ∧ c.toNat ≤ 102 then some (c.toNat - 87)
  else if 65 ≤ c.toNat ∧ c.toNat ≤ 70 then some (c.toNat - 55)
  else none

/-- The single-character JSON string escapes. -/
def unescapeChar (e : Char) : Option Char :=
  if e = '"' then some '"'
  else if e = '\\' then some '\\'
  else if e = '/' then some '/'
  else if e = 'b' then some '\x08'
  else if e = 'f' then some '\x0c'
  else if e = 'n' then some '\n'
  else if e = 'r' then some '\r'
  else if e = 't' then some '\t'
  else none

/-- Parses the body of a JSON string literal up to (and consuming) the
closing quote, returning the decoded characters and the rest of the
input. -/
def parseStringBody : List Char → Option (List Char × List Char)
  | [] => none
  | c :: rest =>
      if c = '"' then some ([], rest)
      else if c = '\\' then
        match rest with
        | [] => none
        | e :: rest2 =>
            if e = 'u' then
              match rest2 with
              | h1 :: h2 :: h3 :: h4 :: rest3 => do
                  let d1 ← parseHexDigit h1
                  let d2 ← parseHexDigit h2
                  let d3 ← parseHexDigit h3
                  let d4 ← parseHexDigit h4
                  let (s, r) ← parseStringBody rest3
                  some (Char.ofNat (((d1 * 16 + d2) * 16 + d3) * 16 + d4) :: s, r)
              | _ => none
            else do
              let c' ← unescapeChar e
              let (s, r) ← parseStringBody rest2
              some (c' :: s, r)
      else do
        let (s, r) ← parseStringBody rest
        some (c :: s, r)

/-- Parses a JSON string literal. -/
def parseJString (l : List Char) : Option (String × List Char) :=
  match l with
  | '"' :: rest => (parseStringBody rest).map fun p => (⟨p.1⟩, p.2)
  | _ => none

/-- Parses the non-empty element list of a JSON array of strings, after
the opening bracket, consuming the closing bracket.  `fuel` bounds the
number of elements; any value at least the element count works. -/
def parseStringsLoop : Nat → List Char → Option (List String × List Char)
  | 0, _ => none
  | fuel + 1, l => do
      let (s, r) ← parseJString l
      match r with
      | ',' :: r2 => do
          let (ss, r3) ← parseStringsLoop fuel r2
          some (s :: ss, r3)
      | ']' :: r2 => some ([s], r2)
      | _ => none

/-- Parses a JSON array of strings. -/
def parseStringArray (l : List Char) : Option (List String × List Char) :=
  match l with
  | '[' :: ']' :: rest => some ([], rest)
  | '[' :: rest => parseStringsLoop l.length rest
  | _ => none

/-- Parses the non-empty `"key":value` entry list of a JSON object, after
the opening brace, consuming the closing brace, with values parsed by
`pv`. -/
def parseEntriesLoop {α : Type} (pv : List Char → Option (α × List Char)) :
    Nat → List Char → Option (List (String × α) × List Char)
  | 0, _ => none
  | fuel + 1, l => do
      let (k, r1) ← parseJString l
      match r1 with
      | ':' :: r2 => do
          let (v, r3) ← pv r2
          match r3 with
          | ',' :: r4 => do
              let (kvs, r5) ← parseEntriesLoop pv fuel r4
              some ((k, v) :: kvs, r5)
          | '\x7d' :: r4 => some ([(k, v)], r4)
          | _ => none
      | _ => none

/-- Parses a JSON object whose values are parsed by `pv`. -/
def parseObject {α : Type} (pv : List Char → Option (α × List Char)) (l : List Char) :
    Option (List (String × α) × List Char) :=
  match l with
  | '\x7b' :: '\x7d' :: rest => some ([], rest)
  | '\x7b' :: rest => parseEntriesLoop pv l.length rest
  | _ => none

/-- Parses one campaign map. -/
def parseCMapValue (l : List Char) : Option (CMap × List Char) :=
  parseObject parseStringArray l

/-- Parses a whole property-index value. -/
def parseIndexValue (l : List Char) : Option (Index × List Char) :=
  parseObject parseCMapValue l

/-- `JSON.parse` of a stored property string at the index schema: the
whole string must be one index object. -/
def parseIndex (s : String) : Option Index :=
  match parseIndexValue s.data with
  | some (idx, []) => some idx
  | _ => none

/-- `setProperty` from `sheets_utils.ts`: the string stored in the
document properties under `UserEditedCampaignValues`. -/
def setProperty (idx : Index) : String := jsonStringifyIndex idx

/-- `getProperty` from `sheets_utils.ts`: `JSON.parse` of the stored
value, with a missing property (`null`) giving the empty object. -/
def getProperty (store : Option String) : Option Index :=
  match store with
  | none => some []
  | some s => parseIndex s

/-! ## Index maintenance (`sheets_utils.ts`)

The three maintenance routines operate on the property index.  Every
JavaScript property access `obj[k]` whose base may be `undefined` is
modelled through `jsGetObj`, which fails with a `TypeError` exactly when
JavaScript would throw one; optional-chained accesses (`obj[k]?.[k']`)
are modelled with safe `Option` binds.  An array `push`/`splice` pair on
possibly-aliased arrays is modelled by re-reading the target list after
the push (the two JS expressions can denote the same array object when
the new and old key coincide). -/
/-- `getCellValueFromRowData` from `sheets_utils.ts`:
`sheet.getRange(row + ':' + row).getValues()[0][position]` — `row` is the
1-based sheet row. -/
def getCellValueFromRowData (sheet : List (List String)) (row position : Nat) : String :=
  cellAt (sheet.getD (row - 1) []) position

/-- The JavaScript read `obj[k].…` whose base must not be `undefined`:
`none` becomes the thrown `TypeError`. -/
def jsGetObj {α : Type} (l : List (String × α)) (k : String) : Except String α :=
  match jsFind l k with
  | some v => Except.ok v
  | none => Except.error "TypeError: Cannot read properties of undefined"

/-- `editCampaignValuesThroughPullingRowData` from `sheets_utils.ts`:
builds a fresh customer → name → `[]` object from sheet rows `row` to
`lastRowChanged`. -/
def editCampaignValuesThroughPullingRowData (row lastRowChanged : Nat)
    (sheet : List (List String)) (positionForName positionForCustomer : Nat) : Index :=
  (List.range' row (lastRowChanged + 1 - row)).foldl
    (fun acc index =>
      let customer := getCellValueFromRowData sheet index positionForCustomer
      let name := getCellValueFromRowData sheet index positionForName
      jsSet acc customer (jsSet ((jsFind acc customer).getD []) name []))
    []

/-- `addNewCampaignUserEditsIntoProperty` from `sheets_utils.ts` (the
variant taking `lastRowChanged`), acting on the parsed property index
`prev`.  The guard compares the column against
`NEW_ASSET_GROUPS.ASSET_GROUP_NAME`; the account-name branch performs
`delete obj[oldValue][campaignNameValue]` (throwing when `obj[oldValue]`
is `undefined`) and re-registers the campaign under the new account; the
campaign-name branch reads `obj[customer][oldValue]` (throwing when
`obj[customer]` is `undefined` and `oldValue` is truthy), deletes a
present old campaign and registers the new value with an empty list. -/
def addNewCampaignUserEditsIntoProperty (value oldValue : String)
    (row lastRowChanged column numberOfColumnsChanged numberOfRowsChanged : Nat)
    (sheet : List (List String)) (prev : Index) : Except String Index :=
  if column ≤ NEW_ASSET_GROUPS.ASSET_GROUP_NAME then
    if 1 < numberOfColumnsChanged ∨ 1 < numberOfRowsChanged then
      Except.ok (jsSpread prev
        (editCampaignValuesThroughPullingRowData row lastRowChanged sheet
          NEW_CAMPAIGNS.CAMPAIGN_NAME NEW_CAMPAIGNS.ACCOUNT_NAME))
    else if column = NEW_CAMPAIGNS.ACCOUNT_NAME then
      let campaignNameValue := getCellValueFromRowData sheet row NEW_CAMPAIGNS.CAMPAIGN_NAME
      if campaignNameValue ≠ "" then do
        let mOld ← jsGetObj prev oldValue
        let obj1 := jsSet prev oldValue (jsDelete mOld campaignNameValue)
        Except.ok (jsSet obj1 value (jsSet ((jsFind obj1 value).getD []) campaignNameValue []))
      else Except.ok prev
    else if column = NEW_CAMPAIGNS.CAMPAIGN_NAME then
      let customer := getCellValueFromRowData sheet row NEW_CAMPAIGNS.ACCOUNT_NAME
      do
        let obj1 ←
          if oldValue ≠ "" then do
            let m ← jsGetObj prev customer
            if (jsFind m oldValue).isSome then
              Except.ok (jsSet prev customer (jsDelete m oldValue))
            else Except.ok prev
          else Except.ok prev
        Except.ok (jsSet obj1 customer (jsSet ((jsFind obj1 customer).getD []) value []))
    else Except.ok prev
  else Except.ok prev

/-- `addNewAssetGroupsUserEditsIntoProperty` from `sheets_utils.ts` (the
variant taking `lastRowChanged`), acting on the parsed property index.
The multi-cell branch evaluates the undeclared identifier
`NewAssetGroups` (the constant is `NEW_ASSET_GROUPS`) and so always
throws a `ReferenceError`.  The asset-group-name branch splices a present
old value out of `obj[customer][campaign]` and appends the new value
(reading `obj[customer]`, which throws when the customer is absent); the
campaign-name and account-name rename branches move the row's asset-group
name between lists, where an `indexOf` chained off an optional access can
be `undefined` — which is `!== -1` — leading to an element read on
`undefined` and a `TypeError`. -/
def addNewAssetGroupsUserEditsIntoProperty (value oldValue : String)
    (row lastRowChanged column numberOfColumnsChanged numberOfRowsChanged : Nat)
    (sheet : List (List String)) (prev : Index) : Except String Index :=
  if column ≤ NEW_ASSET_GROUPS.ASSET_GROUP_NAME then
    let customer := getCellValueFromRowData sheet row NEW_ASSET_GROUPS.ACCOUNT_NAME
    let campaign := getCellValueFromRowData sheet row NEW_ASSET_GROUPS.CAMPAIGN_NAME
    if 1 < numberOfColumnsChanged ∨ 1 < numberOfRowsChanged then
      Except.error "ReferenceError: NewAssetGroups is not defined"
    else if column = NEW_ASSET_GROUPS.ASSET_GROUP_NAME then
      let afterSplice :=
        if oldValue ≠ "" ∧ ((jsFind prev customer).bind fun m => jsFind m campaign).isSome then
          let m := (jsFind prev customer).getD []
          jsSet prev customer
            (jsSet m campaign (((jsFind m campaign).getD []).erase oldValue))
        else prev
      do
        let m1 ← jsGetObj afterSplice customer
        Except.ok (jsSet afterSplice customer
          (jsSet m1 campaign (((jsFind m1 campaign).getD []) ++ [value])))
    else if column = NEW_ASSET_GROUPS.CAMPAIGN_NAME ∧ oldValue ≠ "" ∧
        getCellValueFromRowData sheet row NEW_ASSET_GROUPS.ASSET_GROUP_NAME ≠ "" then
      let agName := getCellValueFromRowData sheet row NEW_ASSET_GROUPS.ASSET_GROUP_NAME
      do
        let obj1 ←
          if ((jsFind prev customer).bind fun m => jsFind m value).isSome then
            Except.ok prev
          else do
            let m ← jsGetObj prev customer
            Except.ok (jsSet prev customer (jsSet m value []))
        let mc ← jsGetObj obj1 customer
        match jsFind mc oldValue with
        | none => Except.error "TypeError: Cannot read properties of undefined"
        | some lo =>
            match List.indexOf? agName lo with
            | none => Except.ok obj1
            | some i =>
                let mc1 := jsSet mc value (((jsFind mc value).getD []) ++ [agName])
                let lo1 := (jsFind mc1 oldValue).getD []
                Except.ok (jsSet obj1 customer (jsSet mc1 oldValue (lo1.eraseIdx i)))
    else if column = NEW_ASSET_GROUPS.ACCOUNT_NAME ∧ oldValue ≠ "" ∧
        getCellValueFromRowData sheet row NEW_ASSET_GROUPS.ASSET_GROUP_NAME ≠ "" then
      let agName := getCellValueFromRowData sheet row NEW_ASSET_GROUPS.ASSET_GROUP_NAME
      do
        let obj1 ←
          if ((jsFind prev value).bind fun m => jsFind m campaign).isSome then
            Except.ok prev
          else do
            let mv ← jsGetObj prev value
            Except.ok (jsSet prev value (jsSet mv campaign []))
        match (jsFind obj1 oldValue).bind fun m => jsFind m campaign with
        | none => Except.error "TypeError: Cannot read properties of undefined"
        | some lo =>
            match List.indexOf? agName lo with
            | none => Except.ok obj1
            | some i =>
                let mv := (jsFind obj1 value).getD []
                let obj2 := jsSet obj1 value
                  (jsSet mv campaign (((jsFind mv campaign).getD []) ++ [agName]))
                let mo := (jsFind obj2 oldValue).getD []
                let lo1 := (jsFind mo campaign).getD []
                Except.ok (jsSet obj2 oldValue (jsSet mo campaign (lo1.eraseIdx i)))
    else Except.ok prev
  else Except.ok prev

/-- One iteration of the `campaignValues.forEach` of
`updateUploadedValuesIntoProperty`: ensure the row's customer and
campaign key path exists. -/
def campaignRowStep (idx : Index) (row : List String) : Except String Index := do
  let customer := cellAt row CAMPAIGN_LIST.CUSTOMER_NAME
  let campaign := cellAt row CAMPAIGN_LIST.CAMPAIGN_NAME
  let idx1 := jsSet idx customer ((jsFind idx customer).getD [])
  let mc ← jsGetObj idx1 customer
  Except.ok (jsSet idx1 customer (jsSet mc campaign ((jsFind mc campaign).getD [])))

/-- One iteration of the `assetGroupValues.forEach` of
`updateUploadedValuesIntoProperty`: ensure the key path exists, then push
the row's asset-group name. -/
def assetGroupRowStep (idx : Index) (row : List String) : Except String Index := do
  let customer := cellAt row ASSET_GROUP_LIST.CUSTOMER_NAME
  let campaign := cellAt row ASSET_GROUP_LIST.CAMPAIGN_NAME
  let assetGroup := cellAt row ASSET_GROUP_LIST.ASSET_GROUP_NAME
  let idx1 := jsSet idx customer ((jsFind idx customer).getD [])
  let mc ← jsGetObj idx1 customer
  let idx2 := jsSet idx1 customer (jsSet mc campaign ((jsFind mc campaign).getD []))
  let mc2 ← jsGetObj idx2 customer
  match jsFind mc2 campaign with
  | none => Except.error "TypeError: Cannot read properties of undefined"
  | some l => Except.ok (jsSet idx2 customer (jsSet mc2 campaign (l ++ [assetGroup])))

/-- `updateUploadedValuesIntoProperty` from `sheets_utils.ts` (the variant
reading the CampaignList and AssetGroupList sheets, without a
`clearProperty`): starting from the stored index `prev`, fold the
campaign rows and then the asset-group rows (each sheet read from row 6
down). -/
def updateUploadedValuesIntoProperty (prev : Index)
    (campaignValues assetGroupValues : List (List String)) : Except String Index := do
  let s1 ← campaignValues.foldlM campaignRowStep prev
  assetGroupValues.foldlM assetGroupRowStep s1

/-- `(jsFind idx c).bind (jsFind · p)`: the list stored at a
customer/campaign key path, when both keys exist. -/
def pathFind (idx : Index) (c p : String) : Option (List String) :=
  (jsFind idx c).bind fun m => jsFind m p

/-- The key path `c → p` exists in the index. -/
def hasPath (idx : Index) (c p : String) : Prop := (pathFind idx c p).isSome

/-- The asset-group list at a key path (empty when the path is absent). -/
def listAt (idx : Index) (c p : String) : List String := (pathFind idx c p).getD []

/-- The customer-map value `campaignRowStep` leaves at the row's customer
key: the previous map with the row's campaign ensured. -/
def campaignRowStepF (idx : Index) (row : List String) : Index :=
  let customer := cellAt row CAMPAIGN_LIST.CUSTOMER_NAME
  let campaign := cellAt row CAMPAIGN_LIST.CAMPAIGN_NAME
  let m := (jsFind idx customer).getD []
  jsSet idx customer (jsSet m campaign ((jsFind m campaign).getD []))

/-- The total value of one asset-group row step: ensure the path, then
append the row's asset-group name. -/
def assetGroupRowStepF (idx : Index) (row : List String) : Index :=
  let customer := cellAt row ASSET_GROUP_LIST.CUSTOMER_NAME
  let campaign := cellAt row ASSET_GROUP_LIST.CAMPAIGN_NAME
  let assetGroup := cellAt row ASSET_GROUP_LIST.ASSET_GROUP_NAME
  let m := (jsFind idx customer).getD []
  jsSet idx customer (jsSet m campaign (((jsFind m campaign).getD []) ++ [assetGroup]))

/-- The total value of `updateUploadedValuesIntoProperty`. -/
def updateUploadedF (prev : Index) (campaignValues assetGroupValues : List (List String)) :
    Index :=
  assetGroupValues.foldl assetGroupRowStepF (campaignValues.foldl campaignRowStepF prev)

/-- The index `addNewCampaignUserEditsIntoProperty`'s campaign-name branch
stores when it does not throw: the old campaign (when truthy and present)
deleted from the row customer's map, and the new value registered there
with an empty asset-group list. -/
def addNewCampaignCampaignEditF (value oldValue customer : String) (prev : Index) : Index :=
  let obj1 :=
    if oldValue ≠ "" ∧ ((jsFind prev customer).bind fun m => jsFind m oldValue).isSome then
      jsSet prev customer (jsDelete ((jsFind prev customer).getD []) oldValue)
    else prev
  jsSet obj1 customer (jsSet ((jsFind obj1 customer).getD []) value [])

/-! ## `pubsub.ts`: the Pub/Sub publish helper -/
/-- The base64 alphabet. -/
def base64Chars : List Char :=
  "ABCDEFGHIJKLMNOPQRSTUVWXYZabcdefghijklmnopqrstuvwxyz0123456789+/".data

/-- The base64 digit for a 6-bit value. -/
def base64Char (n : Nat) : Char := base64Chars.getD n 'A'

/-- UTF-8 encoding of one character, as `Utilities.base64Encode` encodes
its string argument byte by byte. -/
def utf8EncodeChar (c : Char) : List Nat :=
  let n := c.toNat
  if n < 0x80 then [n]
  else if n < 0x800 then [0xC0 + n / 64, 0x80 + n % 64]
  else if n < 0x10000 then [0xE0 + n / 4096, 0x80 + n / 64 % 64, 0x80 + n % 64]
  else [0xF0 + n / 262144, 0x80 + n / 4096 % 64, 0x80 + n / 64 % 64, 0x80 + n % 64]

/-- Standard base64 of a byte list, with `=` padding. -/
def base64EncodeBytes : List Nat → List Char
  | [] => []
  | [b1] => [base64Char (b1 / 4), base64Char (b1 % 4 * 16), '=', '=']
  | [b1, b2] =>
      [base64Char (b1 / 4), base64Char (b1 % 4 * 16 + b2 / 16), base64Char (b2 % 16 * 4), '=']
  | b1 :: b2 :: b3 :: rest =>
      base64Char (b1 / 4) :: base64Char (b1 % 4 * 16 + b2 / 16) ::
        base64Char (b2 % 16 * 4 + b3 / 64) :: base64Char (b3 % 64) ::
        base64EncodeBytes rest

/-- `Utilities.base64Encode` on a string: base64 of its UTF-8 bytes. -/
def base64Encode (s : String) : String :=
  ⟨base64EncodeBytes (s.data.flatMap utf8EncodeChar)⟩

/-- The OAuth2 service object as `pubsub` consumes it. -/
structure OAuthService where
  hasAccess : Bool
  accessToken : String
  authorizationUrl : String

/-- The argument of a `UrlFetchApp.fetch` call. -/
structure HttpRequest where
  url : String
  method : String
  contentType : String
  muteHttpExceptions : Bool
  payload : String
  authHeader : String
  deriving DecidableEq, Repr

/-- The observable effects of `pubsub`. -/
inductive PubsubEffect
  | showSidebar (html : String)
  | httpPost (req : HttpRequest)
  deriving DecidableEq, Repr

/-- Whether an effect is an HTTP call. -/
def isHttpPost : PubsubEffect → Bool
  | PubsubEffect.httpPost _ => true
  | _ => false

/-- The `UrlFetchApp.HTTPResponse` returned by a fetch, modelled as
wrapping the request it answered. -/
structure HTTPResponse where
  request : HttpRequest
  deriving DecidableEq, Repr

/-- `UrlFetchApp.fetch`. -/
def urlFetch (req : HttpRequest) : HTTPResponse := ⟨req⟩

/-- `JSON.stringify` of the `body` object built by `pubsub`:
`messages: [ { attributes: attr, data: base64Encode(data) } ]`. -/
def pubsubMessageJson (attr : List (String × String)) (data : String) : String :=
  ⟨'\x7b' :: (encodeStringChars "messages" ++ ':' :: '[' :: '\x7b' ::
    (encodeStringChars "attributes" ++ ':' :: encodeObject encodeStringChars attr ++
      ',' :: encodeStringChars "data" ++ ':' :: encodeStringChars (base64Encode data)) ++
    ['\x7d', ']', '\x7d'])⟩

/-- The publish URL of a topic. -/
def pubsubPublishUrl (project topic : String) : String :=
  "https://pubsub.googleapis.com/v1/projects/" ++ project ++ "/topics/" ++ topic ++ ":publish"

/-- `pubsub` from `pubsub.ts`, as the pair (effects performed, return
value).  Without access the function shows the authorization sidebar and
returns `undefined`; with access it performs one authenticated POST of
the single-message body and returns the HTTP response. -/
def pubsub (service : OAuthService) (project topic : String)
    (attr : List (String × String)) (data : String) :
    List PubsubEffect × Option HTTPResponse :=
  if service.hasAccess = false then
    ([PubsubEffect.showSidebar
        ("<a href=\"" ++ service.authorizationUrl ++
          "\" target=\"_blank\">Authorize</a>. Reopen the sidebar when the authorization is complete.")],
      none)
  else
    let req : HttpRequest :=
      { url := pubsubPublishUrl project topic
        method := "POST"
        contentType := "application/json"
        muteHttpExceptions := true
        payload := pubsubMessageJson attr data
        authHeader := "Bearer " ++ service.accessToken }
    ([PubsubEffect.httpPost req], some (urlFetch req))

/-! ## Theorems -/

theorem jsFind_jsSet_self {α : Type} (l : List (String × α)) (k : String) (v : α) :
    jsFind (jsSet l k v) k = some v := by
  induction l with
  | nil => simp [jsSet, jsFind]
  | cons hd tl ih =>
      obtain ⟨k', v'⟩ := hd
      by_cases h : k' = k
      · simp [jsSet, h, jsFind]
      · simp [jsSet, h, jsFind, ih]

theorem jsFind_jsSet_ne {α : Type} (l : List (String × α)) (k k' : String) (v : α)
    (h : k ≠ k') : jsFind (jsSet l k v) k' = jsFind l k' := by
  induction l with
  | nil => simp [jsSet, jsFind, h]
  | cons hd tl ih =>
      obtain ⟨k₀, v₀⟩ := hd
      by_cases h₀ : k₀ = k
      · subst h₀; simp [jsSet, jsFind, h]
      · simp [jsSet, h₀, jsFind, ih]

theorem jsFind_eq_none_of_not_mem_keys {α : Type} (l : List (String × α)) (k : String)
    (h : k ∉ l.map Prod.fst) : jsFind l k = none := by
  induction l with
  | nil => rfl
  | cons hd tl ih =>
      obtain ⟨k₀, v₀⟩ := hd
      simp only [List.map_cons, List.mem_cons, not_or] at h
      simp [jsFind, Ne.symm h.1, ih h.2]

theorem jsFind_jsDelete_self {α : Type} (l : List (String × α)) (k : String)
    (hnd : (l.map Prod.fst).Nodup) : jsFind (jsDelete l k) k = none := by
  induction l with
  | nil => simp [jsDelete]
  | cons hd tl ih =>
      obtain ⟨k₀, v₀⟩ := hd
      simp only [List.map_cons, List.nodup_cons] at hnd
      by_cases h₀ : k₀ = k
      · subst h₀
        simp only [jsDelete, if_pos rfl]
        exact jsFind_eq_none_of_not_mem_keys tl k₀ hnd.1
      · simp [jsDelete, h₀, jsFind, ih hnd.2]

theorem jsFind_jsDelete_ne {α : Type} (l : List (String × α)) (k k' : String)
    (h : k ≠ k') : jsFind (jsDelete l k) k' = jsFind l k' := by
  induction l with
  | nil => rfl
  | cons hd tl ih =>
      obtain ⟨k₀, v₀⟩ := hd
      by_cases h₀ : k₀ = k
      · subst h₀; simp [jsDelete, jsFind, h]
      · simp [jsDelete, h₀, jsFind, ih]

/-! ### Behaviour of `assetStatus` per asset type -/
theorem assetStatus_headline (v : String) (c req : Nat) (st : StatusResult) :
    assetStatus v c req st ASSET_TYPES.HEADLINE =
      { message := st.message ++ (if c < req then headlineMissingLine else ""),
        status := st.status && !decide (c < req) } := by
  obtain ⟨m, b⟩ := st
  by_cases hc : c < req <;>
    simp [assetStatus, ASSET_TYPES.HEADLINE, hc, headlineMissingLine]

theorem assetStatus_longHeadline (v : String) (c req : Nat) (st : StatusResult) :
    assetStatus v c req st ASSET_TYPES.LONG_HEADLINE =
      { message := st.message ++ (if c < req then longHeadlineMissingLine else ""),
        status := st.status && !decide (c < req) } := by
  obtain ⟨m, b⟩ := st
  by_cases hc : c < req <;>
    simp [assetStatus, ASSET_TYPES.HEADLINE, ASSET_TYPES.LONG_HEADLINE, hc,
      longHeadlineMissingLine]

theorem assetStatus_description (v : String) (c req : Nat) (st : StatusResult) :
    assetStatus v c req st ASSET_TYPES.DESCRIPTION =
      { message := st.message ++ (if c < req then descriptionMissingLine else ""),
        status := st.status && !decide (c < req) } := by
  obtain ⟨m, b⟩ := st
  by_cases hc : c < req <;>
    simp [assetStatus, ASSET_TYPES.HEADLINE, ASSET_TYPES.LONG_HEADLINE,
      ASSET_TYPES.DESCRIPTION, hc, descriptionMissingLine]

theorem assetStatus_business (v : String) (c req : Nat) (st : StatusResult) :
    assetStatus v c req st ASSET_TYPES.BUSINESS =
      { message := st.message ++ (if c < req then businessMissingLine else ""),
        status := st.status && !decide (c < req) } := by
  obtain ⟨m, b⟩ := st
  by_cases hc : c < req <;>
    simp [assetStatus, ASSET_TYPES.HEADLINE, ASSET_TYPES.LONG_HEADLINE,
      ASSET_TYPES.DESCRIPTION, ASSET_TYPES.BUSINESS, hc, businessMissingLine]

theorem assetStatus_image (v : String) (c req : Nat) (st : StatusResult) :
    assetStatus v c req st ASSET_TYPES.IMAGE =
      { message := st.message ++ (if isValidURL v = false ∧ v ≠ "" then imageUrlLine else ""),
        status := st.status && !(decide (c < req) || !isValidURL v) } := by
  obtain ⟨m, b⟩ := st
  by_cases hv : isValidURL v <;> by_cases hc : c < req <;>
    simp [assetStatus, ASSET_TYPES.HEADLINE, ASSET_TYPES.LONG_HEADLINE,
      ASSET_TYPES.DESCRIPTION, ASSET_TYPES.BUSINESS, ASSET_TYPES.IMAGE, hv, hc,
      imageUrlLine, imageMissingLine]

theorem assetStatus_squareImage (v : String) (c req : Nat) (st : StatusResult) :
    assetStatus v c req st ASSET_TYPES.SQUARE_IMAGE =
      { message := st.message ++
          (if isValidURL v = false ∧ v ≠ "" then squareImageUrlLine else ""),
        status := st.status && !(decide (c < req) || !isValidURL v) } := by
  obtain ⟨m, b⟩ := st
  by_cases hv : isValidURL v <;> by_cases hc : c < req <;>
    simp [assetStatus, ASSET_TYPES.HEADLINE, ASSET_TYPES.LONG_HEADLINE,
      ASSET_TYPES.DESCRIPTION, ASSET_TYPES.BUSINESS, ASSET_TYPES.IMAGE,
      ASSET_TYPES.SQUARE_IMAGE, hv, hc, squareImageUrlLine, squareImageMissingLine]

theorem assetStatus_logo (v : String) (c req : Nat) (st : StatusResult) :
    assetStatus v c req st ASSET_TYPES.LOGO =
      { message := st.message ++ (if isValidURL v = false ∧ v ≠ "" then logoUrlLine else ""),
        status := st.status && !(decide (c < req) || !isValidURL v) } := by
  obtain ⟨m, b⟩ := st
  by_cases hv : isValidURL v <;> by_cases hc : c < req <;>
    simp [assetStatus, ASSET_TYPES.HEADLINE, ASSET_TYPES.LONG_HEADLINE,
      ASSET_TYPES.DESCRIPTION, ASSET_TYPES.BUSINESS, ASSET_TYPES.IMAGE,
      ASSET_TYPES.SQUARE_IMAGE, ASSET_TYPES.LOGO, hv, hc, logoUrlLine, logoMissingLine]

theorem processRowResult_eq (row : List String) :
    processRowResult row =
      { message := errorLines row,
        status := decide (MeetsAllThresholds row ∧ ImagesValid row) } := by
  rw [processRowResult, assetStatus_headline, assetStatus_longHeadline,
    assetStatus_description, assetStatus_business, assetStatus_image,
    assetStatus_squareImage, assetStatus_logo]
  simp only [StatusResult.mk.injEq]
  refine ⟨?_, ?_⟩
  · simp [errorLines, String.append_assoc]
  · rw [Bool.eq_iff_iff]
    simp only [Bool.and_eq_true, Bool.not_eq_true', Bool.not_eq_false',
      Bool.or_eq_false_iff, decide_eq_true_eq, decide_eq_false_iff_not, Nat.not_lt,
      Bool.true_and, MeetsAllThresholds, ImagesValid]
    tauto

theorem rowMessage_eq (row : List String) :
    rowMessage row =
      if MeetsAllThresholds row ∧ ImagesValid row then "SUCCESS"
      else "ERROR: Asset requirements are not met:" ++ errorLines row := by
  rw [rowMessage, processRowResult_eq]
  by_cases h : MeetsAllThresholds row ∧ ImagesValid row <;> simp [h]

theorem error_message_ne_success (s : String) :
    "ERROR: Asset requirements are not met:" ++ s ≠ "SUCCESS" := by
  intro h
  have := congrArg String.data h
  simp [String.data_append] at this

theorem rowWrite_fst (rows : List (List String)) (a : Nat) (x : Nat × Nat × String)
    (h : rowWrite rows a = some x) : x.1 = a + 1 := by
  rw [rowWrite] at h
  split_ifs at h
  obtain rfl := (Option.some.inj h).symm
  rfl

theorem mem_checkMinimumAssets (rows : List (List String)) (x : Nat × Nat × String) :
    x ∈ checkMinimumAssets rows ↔ ∃ a, a < rows.length ∧ rowWrite rows a = some x := by
  rw [checkMinimumAssets, List.mem_filterMap]
  constructor
  · rintro ⟨a, ha, hx⟩
    exact ⟨a, List.mem_range.mp ha, hx⟩
  · rintro ⟨a, ha, hx⟩
    exact ⟨a, List.mem_range.mpr ha, hx⟩

/-- C1, claim as stated, fails: in `badUrlRow` every asset count meets its
fixed minimum threshold (3 headlines, 1 long headline, 2 descriptions, 1
business name, 1 marketing image, 1 square image, 1 logo — the image cells
are non-empty), yet `checkMinimumAssets` does not write `'SUCCESS'` for the
row: it writes an error message, because `assetStatus` also fails a row
whose image cells are not `https` URLs accepted by `isValidURL`. -/
theorem checkMinimumAssets_counterexample :
    MeetsAllThresholds badUrlRow ∧
      checkMinimumAssets badUrlSheet =
        [(6, 2, "ERROR: Asset requirements are not met:" ++
          (imageUrlLine ++ (squareImageUrlLine ++ logoUrlLine)))] ∧
      "ERROR: Asset requirements are not met:" ++
          (imageUrlLine ++ (squareImageUrlLine ++ logoUrlLine)) ≠ "SUCCESS" := by
  refine ⟨by decide, by decide, by decide⟩

/-- C1 (amended).  For every data row eligible for validation (index at
least 5, status not `'UPLOADED'`, the three name cells non-empty),
`checkMinimumAssets` writes exactly one message to column 2 of the 1-based
row `id + 1`, and that message is `'SUCCESS'` if and only if the row's
asset counts meet every fixed minimum threshold *and* the three image
cells hold values accepted by the URL pattern; otherwise the message is
`'ERROR: Asset requirements are not met:'` followed by one missing-asset
line per unmet text threshold and one invalid-URL line per non-empty image
cell the pattern rejects (an empty image cell fails the row but produces
no line). -/
theorem checkMinimumAssets_validated_row (rows : List (List String)) (id : Nat)
    (hlen : id < rows.length) (hid : 5 ≤ id)
    (hup : cellAt (rows.getD id []) NEW_ASSET_GROUPS.STATUS ≠ ROW_STATUS.UPLOADED)
    (hacc : cellAt (rows.getD id []) NEW_ASSET_GROUPS.ACCOUNT_NAME ≠ "")
    (hcamp : cellAt (rows.getD id []) NEW_ASSET_GROUPS.CAMPAIGN_NAME ≠ "")
    (hag : cellAt (rows.getD id []) NEW_ASSET_GROUPS.ASSET_GROUP_NAME ≠ "") :
    rowWrite rows id = some (id + 1, 2, rowMessage (rows.getD id [])) ∧
      (id + 1, 2, rowMessage (rows.getD id [])) ∈ checkMinimumAssets rows ∧
      (rowMessage (rows.getD id []) = "SUCCESS" ↔
        MeetsAllThresholds (rows.getD id []) ∧ ImagesValid (rows.getD id [])) ∧
      (¬(MeetsAllThresholds (rows.getD id []) ∧ ImagesValid (rows.getD id [])) →
        rowMessage (rows.getD id []) =
          "ERROR: Asset requirements are not met:" ++ errorLines (rows.getD id [])) := by
  have hw : rowWrite rows id = some (id + 1, 2, rowMessage (rows.getD id [])) := by
    rw [rowWrite, if_neg hup,
      if_neg (by rintro (h | h | h); exacts [hacc h, hcamp h, hag h]),
      if_neg (by omega)]
  refine ⟨hw, (mem_checkMinimumAssets _ _).mpr ⟨id, hlen, hw⟩, ?_, ?_⟩
  · rw [rowMessage_eq]
    by_cases h : MeetsAllThresholds (rows.getD id []) ∧ ImagesValid (rows.getD id [])
    · rw [if_pos h]
      exact ⟨fun _ => h, fun _ => rfl⟩
    · rw [if_neg h]
      exact ⟨fun hs => absurd hs (error_message_ne_success _), fun hs => absurd hs h⟩
  · intro h
    rw [rowMessage_eq, if_neg h]

/-- Witness for C1 (amended) at `goodSheet`, row index 5: the row is
eligible, all requirements are met and the write is `'SUCCESS'`. -/
theorem checkMinimumAssets_validated_row_witness :
    rowWrite goodSheet 5 = some (6, 2, rowMessage (goodSheet.getD 5 [])) ∧
      (6, 2, rowMessage (goodSheet.getD 5 [])) ∈ checkMinimumAssets goodSheet ∧
      (rowMessage (goodSheet.getD 5 []) = "SUCCESS" ↔
        MeetsAllThresholds (goodSheet.getD 5 []) ∧ ImagesValid (goodSheet.getD 5 [])) ∧
      (¬(MeetsAllThresholds (goodSheet.getD 5 []) ∧ ImagesValid (goodSheet.getD 5 [])) →
        rowMessage (goodSheet.getD 5 []) =
          "ERROR: Asset requirements are not met:" ++ errorLines (goodSheet.getD 5 [])) :=
  checkMinimumAssets_validated_row goodSheet 5 (by decide) (by decide) (by decide)
    (by decide) (by decide) (by decide)

/-- C6.  A row whose status is `'UPLOADED'`, or one of whose account,
campaign or asset-group name cells is empty, is passed over by a
`continue` before any write is prepared: `checkMinimumAssets` writes
nothing to that row. -/
theorem checkMinimumAssets_skips_row (rows : List (List String)) (id : Nat)
    (h : cellAt (rows.getD id []) NEW_ASSET_GROUPS.STATUS = ROW_STATUS.UPLOADED ∨
      cellAt (rows.getD id []) NEW_ASSET_GROUPS.ACCOUNT_NAME = "" ∨
      cellAt (rows.getD id []) NEW_ASSET_GROUPS.CAMPAIGN_NAME = "" ∨
      cellAt (rows.getD id []) NEW_ASSET_GROUPS.ASSET_GROUP_NAME = "") :
    rowWrite rows id = none ∧
      ∀ c m, (id + 1, c, m) ∉ checkMinimumAssets rows := by
  have hw : rowWrite rows id = none := by
    by_cases hup : cellAt (rows.getD id []) NEW_ASSET_GROUPS.STATUS = ROW_STATUS.UPLOADED
    · rw [rowWrite, if_pos hup]
    · rcases h with h | h | h | h
      · exact absurd h hup
      all_goals rw [rowWrite, if_neg hup, if_pos (by tauto)]
  refine ⟨hw, fun c m hmem => ?_⟩
  obtain ⟨a, _, hx⟩ := (mem_checkMinimumAssets _ _).mp hmem
  have ha : a = id := by
    have := rowWrite_fst rows a _ hx
    omega
  rw [ha, hw] at hx
  exact Option.noConfusion hx

/-- Witness for C6 at `uploadedSheet`, row index 5. -/
theorem checkMinimumAssets_skips_row_witness :
    rowWrite uploadedSheet 5 = none ∧
      ∀ c m, (6, c, m) ∉ checkMinimumAssets uploadedSheet :=
  checkMinimumAssets_skips_row uploadedSheet 5 (Or.inl (by decide))

/-- C9.  The URL pattern of `isValidURL` makes the `s` mandatory, so a
string that does not begin with `https://` is always rejected; for each of
the three image asset types, a non-empty cell value the pattern rejects
makes `assetStatus` set the status to `false` and append that type's
invalid-URL diagnostic, and an empty cell never gets the invalid-URL
diagnostic appended. -/
theorem urlValidation_spec :
    (∀ s : String, "https://".data.isPrefixOf s.data = false → isValidURL s = false) ∧
      (∀ (v : String) (c req : Nat) (st : StatusResult), v ≠ "" → isValidURL v = false →
        (assetStatus v c req st ASSET_TYPES.IMAGE).status = false ∧
          (assetStatus v c req st ASSET_TYPES.IMAGE).message =
            st.message ++ imageUrlLine) ∧
      (∀ (v : String) (c req : Nat) (st : StatusResult), v ≠ "" → isValidURL v = false →
        (assetStatus v c req st ASSET_TYPES.SQUARE_IMAGE).status = false ∧
          (assetStatus v c req st ASSET_TYPES.SQUARE_IMAGE).message =
            st.message ++ squareImageUrlLine) ∧
      (∀ (v : String) (c req : Nat) (st : StatusResult), v ≠ "" → isValidURL v = false →
        (assetStatus v c req st ASSET_TYPES.LOGO).status = false ∧
          (assetStatus v c req st ASSET_TYPES.LOGO).message =
            st.message ++ logoUrlLine) ∧
      (∀ (c req : Nat) (st : StatusResult),
        (assetStatus "" c req st ASSET_TYPES.IMAGE).message = st.message ∧
          (assetStatus "" c req st ASSET_TYPES.SQUARE_IMAGE).message = st.message ∧
          (assetStatus "" c req st ASSET_TYPES.LOGO).message = st.message) := by
  refine ⟨?_, ?_, ?_, ?_, ?_⟩
  · intro s h
    unfold isValidURL
    split
    · rename_i c rest heq
      exfalso
      rw [heq] at h
      have hdata : "https://".data = ['h', 't', 't', 'p', 's', ':', '/', '/'] := rfl
      rw [hdata] at h
      simp [List.isPrefixOf] at h
    · rfl
  · intro v c req st hne hv
    rw [assetStatus_image, if_pos ⟨hv, hne⟩]
    simp [hv]
  · intro v c req st hne hv
    rw [assetStatus_squareImage, if_pos ⟨hv, hne⟩]
    simp [hv]
  · intro v c req st hne hv
    rw [assetStatus_logo, if_pos ⟨hv, hne⟩]
    simp [hv]
  · intro c req st
    rw [assetStatus_image, assetStatus_squareImage, assetStatus_logo]
    simp

/-- Witness for C9: a concrete `http` URL is rejected, a concrete
non-empty non-URL image value flips the status and appends the diagnostic
for each image type, and an empty cell leaves the message alone. -/
theorem urlValidation_spec_witness :
    isValidURL "http://example.com" = false ∧
      (assetStatus "notaurl" 1 1 ⟨"m", true⟩ ASSET_TYPES.IMAGE).status = false ∧
      (assetStatus "notaurl" 1 1 ⟨"m", true⟩ ASSET_TYPES.IMAGE).message =
        "m" ++ imageUrlLine ∧
      (assetStatus "notaurl" 1 1 ⟨"m", true⟩ ASSET_TYPES.SQUARE_IMAGE).message =
        "m" ++ squareImageUrlLine ∧
      (assetStatus "notaurl" 1 1 ⟨"m", true⟩ ASSET_TYPES.LOGO).message =
        "m" ++ logoUrlLine ∧
      (assetStatus "" 0 1 ⟨"m", true⟩ ASSET_TYPES.IMAGE).message = "m" :=
  ⟨urlValidation_spec.1 "http://example.com" (by decide),
    (urlValidation_spec.2.1 "notaurl" 1 1 ⟨"m", true⟩ (by decide) (by decide)).1,
    (urlValidation_spec.2.1 "notaurl" 1 1 ⟨"m", true⟩ (by decide) (by decide)).2,
    (urlValidation_spec.2.2.1 "notaurl" 1 1 ⟨"m", true⟩ (by decide) (by decide)).2,
    (urlValidation_spec.2.2.2.1 "notaurl" 1 1 ⟨"m", true⟩ (by decide) (by decide)).2,
    (urlValidation_spec.2.2.2.2 0 1 ⟨"m", true⟩).1⟩

/-- C10.  `assetDataValidation` does step over exactly the `numRows`
consecutive rows starting at `row`; but `assetGroupDataValidation`,
evaluated at the failing input `column = 1`, `row = 6`, `numRows = 3`,
visits only row 6 and stops with a `ReferenceError`, because its recursive
call passes the undeclared identifier `sheetName` where its `column`
parameter belongs. -/
theorem dataValidation_steps :
    (∀ column row numRows, column ≤ ASSETS.ASSET_GROUP_NAME + 1 → 1 ≤ numRows →
      assetDataValidation column row numRows = List.range' row numRows) ∧
      assetGroupDataValidation 1 6 3 =
        ([6], some "ReferenceError: sheetName is not defined") := by
  constructor
  · intro column row numRows hcol hn
    induction numRows generalizing row with
    | zero => omega
    | succ m ih =>
        cases m with
        | zero => simp [assetDataValidation, hcol, List.range']
        | succ k =>
            have hstep : assetDataValidation column row (k + 2) =
                row :: assetDataValidation column (row + 1) (k + 1) := by
              simp [assetDataValidation, hcol]
            rw [hstep, ih (row + 1) (by omega)]
            simp [List.range']
  · decide

/-- Witness for C10's `assetDataValidation` half at `column = 4`,
`row = 6`, `numRows = 3`: rows 6, 7 and 8 are visited. -/
theorem dataValidation_steps_witness :
    assetDataValidation 4 6 3 = [6, 7, 8] ∧
      assetGroupDataValidation 1 6 3 =
        ([6], some "ReferenceError: sheetName is not defined") :=
  ⟨(dataValidation_steps.1 4 6 3 (by decide) (by decide)).trans (by decide),
    dataValidation_steps.2⟩

/-- C7, claim as stated, fails: an edit on the NewCampaigns sheet (one of
"the sheets holding new campaigns, new asset groups, assets or sitelinks")
invokes no routine at all — the index-maintenance routine in particular is
never called — because the dispatcher's `switch` implements only the
NewAssetGroups case. -/
theorem onEdit_counterexample :
    SHEET_NAMES.NEW_CAMPAIGNS = "NewCampaigns" ∧
      onEdit "NewCampaigns" [] none = ([], [], none) ∧
      Routine.addNewCampaignCall ∉ (onEdit "NewCampaigns" [] none).1 := by
  refine ⟨rfl, by decide, by decide⟩

/-- C7 (amended).  The `onEdit` handler dispatches purely on the edited
sheet's name, and only the NewAssetGroups case is implemented: an edit
there invokes exactly the minimum-asset-count validator (whose writes are
`checkMinimumAssets`' writes, with the property store untouched), and an
edit on any other sheet — including NewCampaigns, Assets and Sitelinks —
invokes no routine and leaves both the sheets and the stored property
index unchanged. -/
theorem onEdit_dispatch (sheetName : String) (rows : List (List String))
    (store : Option String) (hname : sheetName ≠ SHEET_NAMES.NEW_ASSET_GROUPS) :
    onEdit sheetName rows store = ([], [], store) ∧
      onEdit SHEET_NAMES.NEW_ASSET_GROUPS rows store =
        ([Routine.checkMinimumAssetsCall], checkMinimumAssets rows, store) := by
  constructor
  · rw [onEdit, if_neg hname]
  · rw [onEdit, if_pos rfl]

/-- Witness for C7 (amended): an edit on the Sitelinks sheet invokes
nothing and changes nothing, and a NewAssetGroups edit over `goodSheet`
invokes the validator. -/
theorem onEdit_dispatch_witness :
    onEdit "Sitelinks" goodSheet (some "st") = ([], [], some "st") ∧
      onEdit SHEET_NAMES.NEW_ASSET_GROUPS goodSheet (some "st") =
        ([Routine.checkMinimumAssetsCall], checkMinimumAssets goodSheet, some "st") :=
  onEdit_dispatch "Sitelinks" goodSheet (some "st") (by decide)

/-! ### The stringify/parse round trip -/
theorem parseHexDigit_hexDigit (n : Nat) (h : n < 16) :
    parseHexDigit (hexDigit n) = some n := by
  interval_cases n <;> rfl

theorem parseStringBody_u_escape (n : Nat) (hn : n < 32) (t : List Char) :
    parseStringBody ('\\' :: 'u' :: '0' :: '0' :: hexDigit (n / 16) :: hexDigit (n % 16) :: t) =
      (parseStringBody t).map fun p => (Char.ofNat n :: p.1, p.2) := by
  have h1 : n / 16 < 16 := by omega
  have h2 : n % 16 < 16 := by omega
  have harith : ((0 * 16 + 0) * 16 + n / 16) * 16 + n % 16 = n := by omega
  have e0 : parseHexDigit '0' = some 0 := rfl
  have harith2 : n / 16 * 16 + n % 16 = n := by omega
  rw [parseStringBody.eq_def]
  simp [e0, parseHexDigit_hexDigit _ h1, parseHexDigit_hexDigit _ h2, harith, harith2]
  cases parseStringBody t <;> rfl

theorem parseStringBody_rt (cs : List Char) (rest : List Char) :
    parseStringBody (cs.flatMap jsonEscapeChar ++ '"' :: rest) = some (cs, rest) := by
  induction cs with
  | nil =>
      rw [List.flatMap_nil, List.nil_append, parseStringBody.eq_def]
      simp
  | cons c cs ih =>
      rw [List.flatMap_cons, List.append_assoc]
      by_cases h1 : c = '"'
      · subst h1
        simp only [jsonEscapeChar, if_pos rfl, List.cons_append, List.nil_append]
        rw [parseStringBody.eq_def]
        simp [unescapeChar, ih]
      · by_cases h2 : c = '\\'
        · subst h2
          simp only [jsonEscapeChar, List.cons_append, List.nil_append]
          rw [parseStringBody.eq_def]
          simp [unescapeChar, ih]
        · by_cases h3 : c = '\x08'
          · subst h3
            simp only [jsonEscapeChar, List.cons_append, List.nil_append]
            rw [parseStringBody.eq_def]
            simp [unescapeChar, ih]
          · by_cases h4 : c = '\t'
            · subst h4
              simp only [jsonEscapeChar, List.cons_append, List.nil_append]
              rw [parseStringBody.eq_def]
              simp [unescapeChar, ih]
            · by_cases h5 : c = '\n'
              · subst h5
                simp only [jsonEscapeChar, List.cons_append, List.nil_append]
                rw [parseStringBody.eq_def]
                simp [unescapeChar, ih]
              · by_cases h6 : c = '\x0c'
                · subst h6
                  simp only [jsonEscapeChar, List.cons_append, List.nil_append]
                  rw [parseStringBody.eq_def]
                  simp [unescapeChar, ih]
                · by_cases h7 : c = '\r'
                  · subst h7
                    simp only [jsonEscapeChar, List.cons_append, List.nil_append]
                    rw [parseStringBody.eq_def]
                    simp [unescapeChar, ih]
                  · by_cases h8 : c.toNat < 32
                    · rw [jsonEscapeChar, if_neg h1, if_neg h2, if_neg h3, if_neg h4,
                        if_neg h5, if_neg h6, if_neg h7, if_pos h8]
                      simp only [List.cons_append, List.nil_append]
                      rw [parseStringBody_u_escape _ h8, ih]
                      simp
                    · rw [jsonEscapeChar, if_neg h1, if_neg h2, if_neg h3, if_neg h4,
                        if_neg h5, if_neg h6, if_neg h7, if_neg h8]
                      simp only [List.cons_append, List.nil_append]
                      rw [parseStringBody.eq_def]
                      simp [h1, h2, ih]

theorem parseJString_rt (s : String) (rest : List Char) :
    parseJString (encodeStringChars s ++ rest) = some (s, rest) := by
  rw [encodeStringChars]
  simp only [List.cons_append, List.append_assoc, List.singleton_append]
  simp [parseJString, parseStringBody_rt]

theorem parseStringsLoop_rt (x : String) (xs : List String) (rest : List Char) (fuel : Nat)
    (hfuel : xs.length < fuel) :
    parseStringsLoop fuel (encodeElems (x :: xs) ++ ']' :: rest) = some (x :: xs, rest) := by
  induction xs generalizing x fuel rest with
  | nil =>
      obtain ⟨f, rfl⟩ : ∃ f, fuel = f + 1 := ⟨fuel - 1, by omega⟩
      rw [encodeElems, parseStringsLoop]
      simp [parseJString_rt x (']' :: rest)]
  | cons y ys ih =>
      obtain ⟨f, rfl⟩ : ∃ f, fuel = f + 1 := ⟨fuel - 1, by omega⟩
      have hlt : ys.length < f := by
        simp only [List.length_cons] at hfuel
        omega
      rw [encodeElems, parseStringsLoop]
      simp only [List.cons_append, List.append_assoc]
      simp [parseJString_rt x (',' :: (encodeElems (y :: ys) ++ ']' :: rest)),
        ih y rest f hlt]

theorem encodeStringChars_length (s : String) : 2 ≤ (encodeStringChars s).length := by
  simp [encodeStringChars]

theorem encodeElems_length (xs : List String) : xs.length ≤ (encodeElems xs).length := by
  induction xs with
  | nil => simp [encodeElems]
  | cons x xs ih =>
      cases xs with
      | nil =>
          have := encodeStringChars_length x
          simp only [encodeElems, List.length_cons, List.length_nil]
          omega
      | cons y ys =>
          have := encodeStringChars_length x
          simp only [encodeElems, List.length_append, List.length_cons] at ih ⊢
          omega

theorem encodeElems_cons_shape (x : String) (xs : List String) :
    ∃ t, encodeElems (x :: xs) = '"' :: t := by
  cases xs with
  | nil => exact ⟨_, rfl⟩
  | cons y ys => exact ⟨_, rfl⟩

theorem parseStringArray_rt (xs : List String) (rest : List Char) :
    parseStringArray (encodeStringList xs ++ rest) = some (xs, rest) := by
  cases xs with
  | nil => simp [encodeStringList, encodeElems, parseStringArray]
  | cons x xs =>
      obtain ⟨t, ht⟩ := encodeElems_cons_shape x xs
      have hshape : encodeStringList (x :: xs) ++ rest = '[' :: '"' :: (t ++ ']' :: rest) := by
        simp [encodeStringList, ht]
      rw [hshape]
      show parseStringsLoop (('[' :: '"' :: (t ++ ']' :: rest)).length)
        ('"' :: (t ++ ']' :: rest)) = some (x :: xs, rest)
      have hback : ('"' : Char) :: (t ++ ']' :: rest) = encodeElems (x :: xs) ++ ']' :: rest := by
        simp [ht]
      rw [hback]
      refine parseStringsLoop_rt x xs rest _ ?_
      have h1 := encodeElems_length (x :: xs)
      have h2 : (encodeElems (x :: xs)).length = t.length + 1 := by
        rw [ht]; simp
      simp only [List.length_cons, List.length_append] at h1 h2 ⊢
      omega

theorem encodeEntries_length {α : Type} (encV : α → List Char) (l : List (String × α)) :
    l.length ≤ (encodeEntries encV l).length := by
  induction l with
  | nil => simp [encodeEntries]
  | cons p ps ih =>
      cases ps with
      | nil =>
          have := encodeStringChars_length p.1
          simp only [encodeEntries, List.length_cons, List.length_append, List.length_nil]
          omega
      | cons q qs =>
          have := encodeStringChars_length p.1
          simp only [encodeEntries, List.length_append, List.length_cons] at ih ⊢
          omega

theorem encodeEntries_cons_shape {α : Type} (encV : α → List Char) (p : String × α)
    (ps : List (String × α)) : ∃ t, encodeEntries encV (p :: ps) = '"' :: t := by
  cases ps with
  | nil =>
      exact ⟨(p.1.data.flatMap jsonEscapeChar ++ ['"']) ++ ':' :: encV p.2,
        by simp only [encodeEntries, encodeStringChars, List.cons_append]⟩
  | cons q qs =>
      exact ⟨(p.1.data.flatMap jsonEscapeChar ++ ['"']) ++
          ':' :: (encV p.2 ++ ',' :: encodeEntries encV (q :: qs)),
        by simp only [encodeEntries, encodeStringChars, List.cons_append, List.append_assoc]⟩

theorem parseEntriesLoop_rt {α : Type} (pv : List Char → Option (α × List Char))
    (encV : α → List Char) (p : String × α) (ps : List (String × α)) (rest : List Char)
    (fuel : Nat) (hfuel : ps.length < fuel)
    (hpv : ∀ q ∈ p :: ps, ∀ r, pv (encV q.2 ++ r) = some (q.2, r)) :
    parseEntriesLoop pv fuel (encodeEntries encV (p :: ps) ++ '\x7d' :: rest) =
      some (p :: ps, rest) := by
  induction ps generalizing p fuel rest with
  | nil =>
      obtain ⟨f, rfl⟩ : ∃ f, fuel = f + 1 := ⟨fuel - 1, by omega⟩
      rw [parseEntriesLoop]
      simp only [encodeEntries, List.append_assoc, List.cons_append]
      simp [parseJString_rt p.1 (':' :: (encV p.2 ++ '\x7d' :: rest)),
        hpv p (by simp) ('\x7d' :: rest)]
  | cons q qs ih =>
      obtain ⟨f, rfl⟩ : ∃ f, fuel = f + 1 := ⟨fuel - 1, by omega⟩
      have hlt : qs.length < f := by
        simp only [List.length_cons] at hfuel
        omega
      have hq : ∀ r ∈ q :: qs, ∀ r2, pv (encV r.2 ++ r2) = some (r.2, r2) := by
        intro r hr r2
        exact hpv r (by simp only [List.mem_cons] at hr ⊢; tauto) r2
      rw [parseEntriesLoop]
      simp only [encodeEntries, List.append_assoc, List.cons_append]
      simp [parseJString_rt p.1
          (':' :: (encV p.2 ++ ',' :: (encodeEntries encV (q :: qs) ++ '\x7d' :: rest))),
        hpv p (by simp) (',' :: (encodeEntries encV (q :: qs) ++ '\x7d' :: rest)),
        ih q rest f hlt hq]

theorem parseObject_rt {α : Type} (pv : List Char → Option (α × List Char))
    (encV : α → List Char) (l : List (String × α)) (rest : List Char)
    (hpv : ∀ q ∈ l, ∀ r, pv (encV q.2 ++ r) = some (q.2, r)) :
    parseObject pv (encodeObject encV l ++ rest) = some (l, rest) := by
  cases l with
  | nil => simp [encodeObject, encodeEntries, parseObject]
  | cons p ps =>
      obtain ⟨t, ht⟩ := encodeEntries_cons_shape encV p ps
      have hshape : encodeObject encV (p :: ps) ++ rest =
          '\x7b' :: '"' :: (t ++ '\x7d' :: rest) := by
        simp [encodeObject, ht]
      rw [hshape]
      show parseEntriesLoop pv (('\x7b' :: '"' :: (t ++ '\x7d' :: rest)).length)
        ('"' :: (t ++ '\x7d' :: rest)) = some (p :: ps, rest)
      have hback : ('"' : Char) :: (t ++ '\x7d' :: rest) =
          encodeEntries encV (p :: ps) ++ '\x7d' :: rest := by
        simp [ht]
      rw [hback]
      refine parseEntriesLoop_rt pv encV p ps rest _ ?_ hpv
      have h1 := encodeEntries_length encV (p :: ps)
      have h2 : (encodeEntries encV (p :: ps)).length = t.length + 1 := by
        rw [ht]; simp
      simp only [List.length_cons, List.length_append] at h1 h2 ⊢
      omega

theorem parseCMapValue_rt (m : CMap) (rest : List Char) :
    parseCMapValue (encodeCMapChars m ++ rest) = some (m, rest) :=
  parseObject_rt parseStringArray encodeStringList m rest
    (fun q _ r => parseStringArray_rt q.2 r)

theorem parseIndexValue_rt (idx : Index) (rest : List Char) :
    parseIndexValue (encodeIndexChars idx ++ rest) = some (idx, rest) :=
  parseObject_rt parseCMapValue encodeCMapChars idx rest
    (fun q _ r => parseCMapValue_rt q.2 r)

/-- C5.  Storing a property index with `setProperty` and reading it back
with `getProperty` returns exactly the stored object: the
`JSON.stringify`/`JSON.parse` persistence round trip is the identity on
customer → campaign → asset-group-name-list structures. -/
theorem getProperty_setProperty (idx : Index) :
    getProperty (some (setProperty idx)) = some idx := by
  show parseIndex (jsonStringifyIndex idx) = some idx
  rw [parseIndex]
  have hdata : (jsonStringifyIndex idx).data = encodeIndexChars idx ++ [] := by
    simp [jsonStringifyIndex]
  rw [hdata, parseIndexValue_rt]

theorem jsSet_jsSet {α : Type} (l : List (String × α)) (k : String) (a b : α) :
    jsSet (jsSet l k a) k b = jsSet l k b := by
  induction l with
  | nil => simp [jsSet]
  | cons hd tl ih =>
      obtain ⟨k₀, v₀⟩ := hd
      by_cases h : k₀ = k
      · simp [jsSet, h]
      · simp [jsSet, h, ih]

theorem jsGetObj_jsSet_self {α : Type} (l : List (String × α)) (k : String) (v : α) :
    jsGetObj (jsSet l k v) k = Except.ok v := by
  rw [jsGetObj, jsFind_jsSet_self]

theorem jsGetObj_of_jsFind {α : Type} (l : List (String × α)) (k : String) (v : α)
    (h : jsFind l k = some v) : jsGetObj l k = Except.ok v := by
  rw [jsGetObj, h]

theorem exceptOk_bind {β γ : Type} (x : β) (f : β → Except String γ) :
    (Except.ok (ε := String) x >>= f) = f x := rfl

theorem campaignRowStep_eq (idx : Index) (row : List String) :
    campaignRowStep idx row = Except.ok (campaignRowStepF idx row) := by
  rw [campaignRowStep, campaignRowStepF]
  simp only [jsGetObj_jsSet_self, exceptOk_bind, jsSet_jsSet]

theorem assetGroupRowStep_eq (idx : Index) (row : List String) :
    assetGroupRowStep idx row = Except.ok (assetGroupRowStepF idx row) := by
  rw [assetGroupRowStep, assetGroupRowStepF]
  simp only [jsGetObj_jsSet_self, exceptOk_bind, jsFind_jsSet_self, jsSet_jsSet]

theorem foldlM_steps_ok {σ α : Type} (step : σ → α → Except String σ) (stepF : σ → α → σ)
    (h : ∀ s a, step s a = Except.ok (stepF s a)) (l : List α) (init : σ) :
    l.foldlM step init = Except.ok (l.foldl stepF init) := by
  induction l generalizing init with
  | nil => rfl
  | cons a l ih => simp [List.foldlM, List.foldl, h, ih, exceptOk_bind]

theorem updateUploadedValuesIntoProperty_eq (prev : Index)
    (campaignValues assetGroupValues : List (List String)) :
    updateUploadedValuesIntoProperty prev campaignValues assetGroupValues =
      Except.ok (updateUploadedF prev campaignValues assetGroupValues) := by
  rw [updateUploadedValuesIntoProperty, updateUploadedF]
  simp only [foldlM_steps_ok campaignRowStep campaignRowStepF campaignRowStep_eq,
    foldlM_steps_ok assetGroupRowStep assetGroupRowStepF assetGroupRowStep_eq,
    exceptOk_bind]

theorem pathFind_jsSet_self (idx : Index) (c : String) (m : CMap) (p : String) :
    pathFind (jsSet idx c m) c p = jsFind m p := by
  simp [pathFind, jsFind_jsSet_self]

theorem pathFind_jsSet_ne (idx : Index) (c : String) (m : CMap) (c' p : String)
    (h : c ≠ c') : pathFind (jsSet idx c m) c' p = pathFind idx c' p := by
  simp [pathFind, jsFind_jsSet_ne _ _ _ _ h]

theorem campaignRowStepF_preserve (idx : Index) (row : List String) (c p : String)
    (l : List String) (h : pathFind idx c p = some l) :
    pathFind (campaignRowStepF idx row) c p = some l := by
  rw [campaignRowStepF]
  by_cases hc : cellAt row CAMPAIGN_LIST.CUSTOMER_NAME = c
  · subst hc
    rw [pathFind_jsSet_self]
    rw [pathFind] at h
    cases hfind : jsFind idx (cellAt row CAMPAIGN_LIST.CUSTOMER_NAME) with
    | none => rw [hfind] at h; exact Option.noConfusion h
    | some m₀ =>
        rw [hfind] at h
        replace h : jsFind m₀ p = some l := h
        simp only [Option.getD_some]
        by_cases hp : cellAt row CAMPAIGN_LIST.CAMPAIGN_NAME = p
        · subst hp
          rw [jsFind_jsSet_self, h]
          rfl
        · rw [jsFind_jsSet_ne _ _ _ _ hp, h]
  · rw [pathFind_jsSet_ne _ _ _ _ _ hc, h]

theorem campaignRowStepF_creates (idx : Index) (row : List String) :
    hasPath (campaignRowStepF idx row) (cellAt row CAMPAIGN_LIST.CUSTOMER_NAME)
      (cellAt row CAMPAIGN_LIST.CAMPAIGN_NAME) := by
  rw [hasPath, campaignRowStepF, pathFind_jsSet_self, jsFind_jsSet_self]
  rfl

theorem assetGroupRowStepF_preserve_mem (idx : Index) (row : List String) (c p g : String)
    (h : g ∈ listAt idx c p) : g ∈ listAt (assetGroupRowStepF idx row) c p := by
  rw [assetGroupRowStepF]
  by_cases hc : cellAt row ASSET_GROUP_LIST.CUSTOMER_NAME = c
  · subst hc
    rw [listAt, pathFind_jsSet_self]
    rw [listAt, pathFind] at h
    cases hfind : jsFind idx (cellAt row ASSET_GROUP_LIST.CUSTOMER_NAME) with
    | none => rw [hfind] at h; exact absurd h (List.not_mem_nil g)
    | some m₀ =>
        rw [hfind] at h
        replace h : g ∈ (jsFind m₀ p).getD [] := h
        simp only [Option.getD_some]
        by_cases hp : cellAt row ASSET_GROUP_LIST.CAMPAIGN_NAME = p
        · subst hp
          rw [jsFind_jsSet_self]
          simp only [Option.getD_some]
          exact List.mem_append_left _ h
        · rw [jsFind_jsSet_ne _ _ _ _ hp]
          exact h
  · rw [listAt, pathFind_jsSet_ne _ _ _ _ _ hc]
    exact h

theorem assetGroupRowStepF_preserve_path (idx : Index) (row : List String) (c p : String)
    (h : hasPath idx c p) : hasPath (assetGroupRowStepF idx row) c p := by
  rw [assetGroupRowStepF]
  by_cases hc : cellAt row ASSET_GROUP_LIST.CUSTOMER_NAME = c
  · subst hc
    rw [hasPath, pathFind_jsSet_self]
    rw [hasPath, pathFind] at h
    cases hfind : jsFind idx (cellAt row ASSET_GROUP_LIST.CUSTOMER_NAME) with
    | none => rw [hfind] at h; exact Bool.noConfusion h
    | some m₀ =>
        rw [hfind] at h
        replace h : (jsFind m₀ p).isSome = true := h
        simp only [Option.getD_some]
        by_cases hp : cellAt row ASSET_GROUP_LIST.CAMPAIGN_NAME = p
        · subst hp
          rw [jsFind_jsSet_self]
          rfl
        · rw [jsFind_jsSet_ne _ _ _ _ hp]
          exact h
  · rw [hasPath, pathFind_jsSet_ne _ _ _ _ _ hc]
    exact h

theorem assetGroupRowStepF_adds (idx : Index) (row : List String) :
    cellAt row ASSET_GROUP_LIST.ASSET_GROUP_NAME ∈
      listAt (assetGroupRowStepF idx row) (cellAt row ASSET_GROUP_LIST.CUSTOMER_NAME)
        (cellAt row ASSET_GROUP_LIST.CAMPAIGN_NAME) := by
  rw [assetGroupRowStepF, listAt, pathFind_jsSet_self, jsFind_jsSet_self]
  simp

theorem foldl_campaignRowStepF_preserve (rows : List (List String)) (idx : Index)
    (c p : String) (l : List String) (h : pathFind idx c p = some l) :
    pathFind (rows.foldl campaignRowStepF idx) c p = some l := by
  induction rows generalizing idx with
  | nil => exact h
  | cons row rows ih => exact ih _ (campaignRowStepF_preserve _ row _ _ _ h)

theorem foldl_campaignRowStepF_creates (rows : List (List String)) (idx : Index)
    (row : List String) (hrow : row ∈ rows) :
    hasPath (rows.foldl campaignRowStepF idx) (cellAt row CAMPAIGN_LIST.CUSTOMER_NAME)
      (cellAt row CAMPAIGN_LIST.CAMPAIGN_NAME) := by
  induction rows generalizing idx with
  | nil => cases hrow
  | cons r rows ih =>
      rcases List.mem_cons.mp hrow with rfl | hmem
      · rw [List.foldl_cons]
        have hcre := campaignRowStepF_creates idx row
        rw [hasPath] at hcre ⊢
        obtain ⟨l, hl⟩ := Option.isSome_iff_exists.mp hcre
        rw [foldl_campaignRowStepF_preserve rows _ _ _ l hl]
        rfl
      · exact ih _ hmem

theorem foldl_assetGroupRowStepF_preserve_mem (rows : List (List String)) (idx : Index)
    (c p g : String) (h : g ∈ listAt idx c p) :
    g ∈ listAt (rows.foldl assetGroupRowStepF idx) c p := by
  induction rows generalizing idx with
  | nil => exact h
  | cons row rows ih => exact ih _ (assetGroupRowStepF_preserve_mem _ row _ _ _ h)

theorem foldl_assetGroupRowStepF_preserve_path (rows : List (List String)) (idx : Index)
    (c p : String) (h : hasPath idx c p) :
    hasPath (rows.foldl assetGroupRowStepF idx) c p := by
  induction rows generalizing idx with
  | nil => exact h
  | cons row rows ih => exact ih _ (assetGroupRowStepF_preserve_path _ row _ _ h)

theorem foldl_assetGroupRowStepF_adds (rows : List (List String)) (idx : Index)
    (row : List String) (hrow : row ∈ rows) :
    cellAt row ASSET_GROUP_LIST.ASSET_GROUP_NAME ∈
      listAt (rows.foldl assetGroupRowStepF idx) (cellAt row ASSET_GROUP_LIST.CUSTOMER_NAME)
        (cellAt row ASSET_GROUP_LIST.CAMPAIGN_NAME) := by
  induction rows generalizing idx with
  | nil => cases hrow
  | cons r rows ih =>
      rcases List.mem_cons.mp hrow with rfl | hmem
      · rw [List.foldl_cons]
        exact foldl_assetGroupRowStepF_preserve_mem rows _ _ _ _
          (assetGroupRowStepF_adds idx row)
      · exact ih _ hmem

theorem campaignRowStepF_preserve_mem (idx : Index) (row : List String) (c p g : String)
    (h : g ∈ listAt idx c p) : g ∈ listAt (campaignRowStepF idx row) c p := by
  rw [listAt] at h
  cases hfind : pathFind idx c p with
  | none => rw [hfind] at h; exact absurd h (List.not_mem_nil g)
  | some l =>
      rw [hfind] at h
      rw [listAt, campaignRowStepF_preserve idx row c p l hfind]
      exact h

theorem foldl_campaignRowStepF_preserve_mem (rows : List (List String)) (idx : Index)
    (c p g : String) (h : g ∈ listAt idx c p) :
    g ∈ listAt (rows.foldl campaignRowStepF idx) c p := by
  induction rows generalizing idx with
  | nil => exact h
  | cons row rows ih => exact ih _ (campaignRowStepF_preserve_mem _ row _ _ _ h)

theorem foldl_campaignRowStepF_preserve_path (rows : List (List String)) (idx : Index)
    (c p : String) (h : hasPath idx c p) :
    hasPath (rows.foldl campaignRowStepF idx) c p := by
  rw [hasPath] at h
  obtain ⟨l, hl⟩ := Option.isSome_iff_exists.mp h
  rw [hasPath, foldl_campaignRowStepF_preserve rows idx c p l hl]
  rfl

/-- C2, claim as stated, fails: `updateUploadedValuesIntoProperty` starts
from the previously stored index and only adds to it — it performs no
`clearProperty` — so an entry absent from both sheets survives the
rebuild.  Here the stored index maps customer `X` to campaign `Y`,
neither of which appears in the single CampaignList row (customer `A`,
campaign `B`) or the empty AssetGroupList, yet the resulting index still
contains the `X → Y` path. -/
theorem updateUploadedValuesIntoProperty_counterexample :
    updateUploadedValuesIntoProperty [("X", [("Y", [])])] [["A", "", "B"]] [] =
      Except.ok [("X", [("Y", [])]), ("A", [("B", [])])] ∧
      hasPath [("X", [("Y", [])]), ("A", [("B", [])])] "X" "Y" ∧
      cellAt ["A", "", "B"] CAMPAIGN_LIST.CUSTOMER_NAME ≠ "X" ∧
      cellAt ["A", "", "B"] CAMPAIGN_LIST.CAMPAIGN_NAME ≠ "Y" := by
  exact ⟨rfl, rfl, by decide, by decide⟩

/-- C2 (amended).  `updateUploadedValuesIntoProperty` completes and stores
the previous index *merged* with the sheet structure read from row 6 on:
every (customer, campaign) pair of the CampaignList rows is a key path of
the stored index, every asset-group name of the AssetGroupList rows
appears in the list under its row's (customer, campaign), and every key
path and asset-group entry of the previous index is preserved — entries
absent from the sheets are *not* removed, because the routine never
clears the stored property before merging. -/
theorem updateUploadedValuesIntoProperty_spec (prev : Index)
    (campaignValues assetGroupValues : List (List String)) :
    updateUploadedValuesIntoProperty prev campaignValues assetGroupValues =
      Except.ok (updateUploadedF prev campaignValues assetGroupValues) ∧
      (∀ row ∈ campaignValues,
        hasPath (updateUploadedF prev campaignValues assetGroupValues)
          (cellAt row CAMPAIGN_LIST.CUSTOMER_NAME)
          (cellAt row CAMPAIGN_LIST.CAMPAIGN_NAME)) ∧
      (∀ row ∈ assetGroupValues,
        cellAt row ASSET_GROUP_LIST.ASSET_GROUP_NAME ∈
          listAt (updateUploadedF prev campaignValues assetGroupValues)
            (cellAt row ASSET_GROUP_LIST.CUSTOMER_NAME)
            (cellAt row ASSET_GROUP_LIST.CAMPAIGN_NAME)) ∧
      (∀ c p g, g ∈ listAt prev c p →
        g ∈ listAt (updateUploadedF prev campaignValues assetGroupValues) c p) ∧
      (∀ c p, hasPath prev c p →
        hasPath (updateUploadedF prev campaignValues assetGroupValues) c p) := by
  refine ⟨updateUploadedValuesIntoProperty_eq prev campaignValues assetGroupValues,
    ?_, ?_, ?_, ?_⟩
  · intro row hrow
    exact foldl_assetGroupRowStepF_preserve_path assetGroupValues _ _ _
      (foldl_campaignRowStepF_creates campaignValues prev row hrow)
  · intro row hrow
    exact foldl_assetGroupRowStepF_adds assetGroupValues _ row hrow
  · intro c p g h
    exact foldl_assetGroupRowStepF_preserve_mem assetGroupValues _ c p g
      (foldl_campaignRowStepF_preserve_mem campaignValues prev c p g h)
  · intro c p h
    exact foldl_assetGroupRowStepF_preserve_path assetGroupValues _ c p
      (foldl_campaignRowStepF_preserve_path campaignValues prev c p h)

/-- Witness for C2 (amended) at a concrete previous index and concrete
CampaignList and AssetGroupList rows. -/
theorem updateUploadedValuesIntoProperty_spec_witness :
    updateUploadedValuesIntoProperty [("X", [("Y", ["g"])])] [["A", "1", "B"]]
        [["A", "1", "B", "2", "G"]] =
      Except.ok (updateUploadedF [("X", [("Y", ["g"])])] [["A", "1", "B"]]
        [["A", "1", "B", "2", "G"]]) ∧
      hasPath (updateUploadedF [("X", [("Y", ["g"])])] [["A", "1", "B"]]
        [["A", "1", "B", "2", "G"]]) "A" "B" ∧
      "G" ∈ listAt (updateUploadedF [("X", [("Y", ["g"])])] [["A", "1", "B"]]
        [["A", "1", "B", "2", "G"]]) "A" "B" ∧
      "g" ∈ listAt (updateUploadedF [("X", [("Y", ["g"])])] [["A", "1", "B"]]
        [["A", "1", "B", "2", "G"]]) "X" "Y" :=
  ⟨(updateUploadedValuesIntoProperty_spec _ _ _).1,
    (updateUploadedValuesIntoProperty_spec _ _ _).2.1 ["A", "1", "B"] (by simp),
    (updateUploadedValuesIntoProperty_spec _ _ _).2.2.1 ["A", "1", "B", "2", "G"] (by simp),
    (updateUploadedValuesIntoProperty_spec _ _ _).2.2.2.1 "X" "Y" "g" (by decide)⟩

theorem jsFind_mem {α : Type} (l : List (String × α)) (k : String) (v : α)
    (h : jsFind l k = some v) : (k, v) ∈ l := by
  induction l with
  | nil => exact Option.noConfusion h
  | cons hd tl ih =>
      obtain ⟨k₀, v₀⟩ := hd
      rw [jsFind] at h
      by_cases h₀ : k₀ = k
      · rw [if_pos h₀] at h
        subst h₀
        obtain rfl := Option.some.inj h
        exact List.mem_cons_self _ _
      · rw [if_neg h₀] at h
        exact List.mem_cons_of_mem _ (ih h)

/-- C3, claim as stated, fails: a single-cell campaign-name edit whose
`oldValue` is non-empty reads `obj[customer][oldValue]`, which throws a
`TypeError` when the row's customer is not a key of the stored index —
here the stored index is empty — so nothing is stored and the new value
is *not* registered under the customer. -/
theorem addNewCampaign_campaign_edit_counterexample :
    addNewCampaignUserEditsIntoProperty "new" "old" 6 6 NEW_CAMPAIGNS.CAMPAIGN_NAME 1 1
        [[], [], [], [], [], ["", "C", "old"]] [] =
      Except.error "TypeError: Cannot read properties of undefined" := by
  rfl

/-- C3 (amended).  For a single-cell edit of the campaign-name column
whose row names customer `C` — provided the old value is empty or `C` is
a key of the stored index (otherwise the branch throws), and the maps of
the stored index have no duplicate keys — the branch completes, `C`'s map
afterwards contains the new value mapped to the empty list, no longer
contains a non-empty present old value different from the new value, and
the entries of every other customer are unchanged. -/
theorem addNewCampaign_campaignBranch_call (value oldValue : String)
    (row lastRowChanged : Nat) (sheet : List (List String)) (prev : Index)
    (hpre : oldValue = "" ∨
      (jsFind prev (getCellValueFromRowData sheet row NEW_CAMPAIGNS.ACCOUNT_NAME)).isSome) :
    addNewCampaignUserEditsIntoProperty value oldValue row lastRowChanged
        NEW_CAMPAIGNS.CAMPAIGN_NAME 1 1 sheet prev =
      Except.ok (addNewCampaignCampaignEditF value oldValue
        (getCellValueFromRowData sheet row NEW_CAMPAIGNS.ACCOUNT_NAME) prev) := by
  set customer := getCellValueFromRowData sheet row NEW_CAMPAIGNS.ACCOUNT_NAME with hcust
  rw [addNewCampaignUserEditsIntoProperty,
    if_pos (by decide : NEW_CAMPAIGNS.CAMPAIGN_NAME ≤ NEW_ASSET_GROUPS.ASSET_GROUP_NAME),
    if_neg (by decide : ¬(1 < 1 ∨ 1 < 1)),
    if_neg (by decide : ¬(NEW_CAMPAIGNS.CAMPAIGN_NAME = NEW_CAMPAIGNS.ACCOUNT_NAME)),
    if_pos (rfl : NEW_CAMPAIGNS.CAMPAIGN_NAME = NEW_CAMPAIGNS.CAMPAIGN_NAME)]
  rw [addNewCampaignCampaignEditF]
  by_cases hne : oldValue = ""
  · rw [if_neg (by simp [hne]), exceptOk_bind, if_neg (by simp [hne])]
  · obtain ⟨m, hm⟩ := Option.isSome_iff_exists.mp (hpre.resolve_left hne)
    rw [if_pos hne, jsGetObj_of_jsFind prev customer m hm, exceptOk_bind]
    by_cases hsome : (jsFind m oldValue).isSome
    · rw [if_pos hsome, exceptOk_bind,
        if_pos (⟨hne, by rw [hm]; exact hsome⟩ : oldValue ≠ "" ∧
          ((jsFind prev customer).bind fun m => jsFind m oldValue).isSome),
        hm]
      rfl
    · rw [if_neg hsome, exceptOk_bind,
        if_neg (fun hc => hsome (by rw [hm] at hc; exact hc.2))]

theorem addNewCampaign_campaign_edit (value oldValue : String) (row lastRowChanged : Nat)
    (sheet : List (List String)) (prev : Index)
    (hpre : oldValue = "" ∨
      (jsFind prev (getCellValueFromRowData sheet row NEW_CAMPAIGNS.ACCOUNT_NAME)).isSome)
    (hwf : ∀ q ∈ prev, ((q.2.map Prod.fst).Nodup)) :
    addNewCampaignUserEditsIntoProperty value oldValue row lastRowChanged
        NEW_CAMPAIGNS.CAMPAIGN_NAME 1 1 sheet prev =
      Except.ok (addNewCampaignCampaignEditF value oldValue
        (getCellValueFromRowData sheet row NEW_CAMPAIGNS.ACCOUNT_NAME) prev) ∧
      pathFind (addNewCampaignCampaignEditF value oldValue
        (getCellValueFromRowData sheet row NEW_CAMPAIGNS.ACCOUNT_NAME) prev)
        (getCellValueFromRowData sheet row NEW_CAMPAIGNS.ACCOUNT_NAME) value = some [] ∧
      (oldValue ≠ "" → value ≠ oldValue →
        pathFind (addNewCampaignCampaignEditF value oldValue
          (getCellValueFromRowData sheet row NEW_CAMPAIGNS.ACCOUNT_NAME) prev)
          (getCellValueFromRowData sheet row NEW_CAMPAIGNS.ACCOUNT_NAME) oldValue = none) ∧
      (∀ c, c ≠ getCellValueFromRowData sheet row NEW_CAMPAIGNS.ACCOUNT_NAME →
        jsFind (addNewCampaignCampaignEditF value oldValue
          (getCellValueFromRowData sheet row NEW_CAMPAIGNS.ACCOUNT_NAME) prev) c =
          jsFind prev c) := by
  set customer := getCellValueFromRowData sheet row NEW_CAMPAIGNS.ACCOUNT_NAME with hcust
  have hframe : ∀ c, c ≠ customer →
      jsFind (addNewCampaignCampaignEditF value oldValue customer prev) c = jsFind prev c := by
    intro c hc
    rw [addNewCampaignCampaignEditF]
    by_cases hcond : oldValue ≠ "" ∧
        ((jsFind prev customer).bind fun m => jsFind m oldValue).isSome
    · rw [if_pos hcond, jsFind_jsSet_ne _ _ _ _ (Ne.symm hc),
        jsFind_jsSet_ne _ _ _ _ (Ne.symm hc)]
    · rw [if_neg hcond, jsFind_jsSet_ne _ _ _ _ (Ne.symm hc)]
  have hvalue : pathFind (addNewCampaignCampaignEditF value oldValue customer prev)
      customer value = some [] := by
    rw [addNewCampaignCampaignEditF, pathFind_jsSet_self, jsFind_jsSet_self]
  have hold : oldValue ≠ "" → value ≠ oldValue →
      pathFind (addNewCampaignCampaignEditF value oldValue customer prev)
        customer oldValue = none := by
    intro hne hvo
    rw [addNewCampaignCampaignEditF, pathFind_jsSet_self,
      jsFind_jsSet_ne _ _ _ _ hvo]
    by_cases hcond : oldValue ≠ "" ∧
        ((jsFind prev customer).bind fun m => jsFind m oldValue).isSome
    · rw [if_pos hcond, jsFind_jsSet_self]
      cases hfind : jsFind prev customer with
      | none =>
          rw [hfind] at hcond
          exact absurd hcond.2 (by intro hs; exact Bool.noConfusion hs)
      | some m =>
          simp only [Option.getD_some]
          exact jsFind_jsDelete_self _ _
            (hwf (customer, m) (jsFind_mem prev customer m hfind))
    · rw [if_neg hcond]
      cases hfind : jsFind prev customer with
      | none => rfl
      | some m =>
          simp only [Option.getD_some]
          have hns : ¬ ((jsFind prev customer).bind fun m => jsFind m oldValue).isSome := by
            intro hs
            exact hcond ⟨hne, hs⟩
          rw [hfind] at hns
          replace hns : ¬ (jsFind m oldValue).isSome := hns
          exact Option.not_isSome_iff_eq_none.mp hns
  exact ⟨addNewCampaign_campaignBranch_call value oldValue row lastRowChanged sheet prev hpre,
    hvalue, hold, hframe⟩

/-- Witness for C3 (amended): customer `C` edits its campaign from `old`
to `new`, starting from an index where `C → old → [x]` is stored. -/
theorem addNewCampaign_campaign_edit_witness :
    addNewCampaignUserEditsIntoProperty "new" "old" 6 6 NEW_CAMPAIGNS.CAMPAIGN_NAME 1 1
        [[], [], [], [], [], ["", "C", "old"]] [("C", [("old", ["x"])])] =
      Except.ok (addNewCampaignCampaignEditF "new" "old" "C" [("C", [("old", ["x"])])]) ∧
      pathFind (addNewCampaignCampaignEditF "new" "old" "C" [("C", [("old", ["x"])])])
        "C" "new" = some [] ∧
      pathFind (addNewCampaignCampaignEditF "new" "old" "C" [("C", [("old", ["x"])])])
        "C" "old" = none ∧
      jsFind (addNewCampaignCampaignEditF "new" "old" "C" [("C", [("old", ["x"])])]) "D" =
        jsFind [("C", [("old", ["x"])])] "D" :=
  ⟨(addNewCampaign_campaign_edit "new" "old" 6 6 [[], [], [], [], [], ["", "C", "old"]]
      [("C", [("old", ["x"])])] (Or.inr (by decide)) (by decide)).1,
    (addNewCampaign_campaign_edit "new" "old" 6 6 [[], [], [], [], [], ["", "C", "old"]]
      [("C", [("old", ["x"])])] (Or.inr (by decide)) (by decide)).2.1,
    (addNewCampaign_campaign_edit "new" "old" 6 6 [[], [], [], [], [], ["", "C", "old"]]
      [("C", [("old", ["x"])])] (Or.inr (by decide)) (by decide)).2.2.1 (by decide) (by decide),
    (addNewCampaign_campaign_edit "new" "old" 6 6 [[], [], [], [], [], ["", "C", "old"]]
      [("C", [("old", ["x"])])] (Or.inr (by decide)) (by decide)).2.2.2 "D" (by decide)⟩

/-- C4, claim as stated, fails: a single-cell edit of the asset-group-name
column, started from the well-shaped (empty) index, throws a `TypeError`
— `obj[customer][campaign]` is read with the row's customer absent from
the index — although the claim only excepts the customer-rename branch of
`addNewCampaignUserEditsIntoProperty`. -/
theorem indexOps_counterexample :
    addNewAssetGroupsUserEditsIntoProperty "ag" "" 6 6 NEW_ASSET_GROUPS.ASSET_GROUP_NAME 1 1
        [[], [], [], [], [], ["", "", "C", "B", "ag"]] [] =
      Except.error "TypeError: Cannot read properties of undefined" := by
  rfl

theorem optSome_bind {α β : Type} (a : α) (f : α → Option β) :
    (some a).bind f = f a := rfl

/-- C4 (amended).  The three index-maintenance routines keep the
customer → campaign → asset-group-list shape (by construction of the
model) and complete without error under the preconditions their property
accesses require: `updateUploadedValuesIntoProperty` always completes;
`addNewCampaignUserEditsIntoProperty` completes on its multi-cell branch,
on the account branch when the row's campaign cell is empty or the old
account value is a key of the index, and on the campaign branch when the
old value is empty or the row's customer is a key;
`addNewAssetGroupsUserEditsIntoProperty` *always throws* on its
multi-cell branch (it names the undeclared identifier `NewAssetGroups`),
and completes on the asset-group-name branch when the row's customer is a
key, on the campaign-rename branch when additionally the old campaign is
a key of the customer's map, and on the account-rename branch when the
new account value is a key and the old account's map has the row's
campaign. -/
theorem indexOps_completion :
    (∀ (prev : Index) (campaignValues assetGroupValues : List (List String)),
      updateUploadedValuesIntoProperty prev campaignValues assetGroupValues =
        Except.ok (updateUploadedF prev campaignValues assetGroupValues)) ∧
      (∀ value oldValue row lastRowChanged column nCols nRows sheet (prev : Index),
        column ≤ NEW_ASSET_GROUPS.ASSET_GROUP_NAME → 1 < nCols ∨ 1 < nRows →
        addNewCampaignUserEditsIntoProperty value oldValue row lastRowChanged column
            nCols nRows sheet prev =
          Except.ok (jsSpread prev (editCampaignValuesThroughPullingRowData row
            lastRowChanged sheet NEW_CAMPAIGNS.CAMPAIGN_NAME NEW_CAMPAIGNS.ACCOUNT_NAME))) ∧
      (∀ value oldValue row lastRowChanged sheet (prev : Index),
        getCellValueFromRowData sheet row NEW_CAMPAIGNS.CAMPAIGN_NAME = "" ∨
            (jsFind prev oldValue).isSome →
        ∃ idx', addNewCampaignUserEditsIntoProperty value oldValue row lastRowChanged
          NEW_CAMPAIGNS.ACCOUNT_NAME 1 1 sheet prev = Except.ok idx') ∧
      (∀ value oldValue row lastRowChanged sheet (prev : Index),
        oldValue = "" ∨
            (jsFind prev (getCellValueFromRowData sheet row
              NEW_CAMPAIGNS.ACCOUNT_NAME)).isSome →
        ∃ idx', addNewCampaignUserEditsIntoProperty value oldValue row lastRowChanged
          NEW_CAMPAIGNS.CAMPAIGN_NAME 1 1 sheet prev = Except.ok idx') ∧
      (∀ value oldValue row lastRowChanged column nCols nRows sheet (prev : Index),
        column ≤ NEW_ASSET_GROUPS.ASSET_GROUP_NAME → 1 < nCols ∨ 1 < nRows →
        addNewAssetGroupsUserEditsIntoProperty value oldValue row lastRowChanged column
            nCols nRows sheet prev =
          Except.error "ReferenceError: NewAssetGroups is not defined") ∧
      (∀ value oldValue row lastRowChanged sheet (prev : Index),
        (jsFind prev (getCellValueFromRowData sheet row
          NEW_ASSET_GROUPS.ACCOUNT_NAME)).isSome →
        ∃ idx', addNewAssetGroupsUserEditsIntoProperty value oldValue row lastRowChanged
          NEW_ASSET_GROUPS.ASSET_GROUP_NAME 1 1 sheet prev = Except.ok idx') ∧
      (∀ value oldValue row lastRowChanged sheet (prev : Index) mc,
        oldValue ≠ "" →
        jsFind prev (getCellValueFromRowData sheet row NEW_ASSET_GROUPS.ACCOUNT_NAME) =
          some mc →
        (jsFind mc oldValue).isSome →
        ∃ idx', addNewAssetGroupsUserEditsIntoProperty value oldValue row lastRowChanged
          NEW_ASSET_GROUPS.CAMPAIGN_NAME 1 1 sheet prev = Except.ok idx') ∧
      (∀ value oldValue row lastRowChanged sheet (prev : Index),
        oldValue ≠ "" →
        (jsFind prev value).isSome →
        ((jsFind prev oldValue).bind fun m => jsFind m (getCellValueFromRowData sheet row
          NEW_ASSET_GROUPS.CAMPAIGN_NAME)).isSome →
        ∃ idx', addNewAssetGroupsUserEditsIntoProperty value oldValue row lastRowChanged
          NEW_ASSET_GROUPS.ACCOUNT_NAME 1 1 sheet prev = Except.ok idx') := by
  refine ⟨updateUploadedValuesIntoProperty_eq, ?_, ?_, ?_, ?_, ?_, ?_, ?_⟩
  · intro value oldValue row lastRowChanged column nCols nRows sheet prev hcol hmulti
    rw [addNewCampaignUserEditsIntoProperty, if_pos hcol, if_pos hmulti]
  · intro value oldValue row lastRowChanged sheet prev hpre
    rw [addNewCampaignUserEditsIntoProperty,
      if_pos (by decide : NEW_CAMPAIGNS.ACCOUNT_NAME ≤ NEW_ASSET_GROUPS.ASSET_GROUP_NAME),
      if_neg (by decide : ¬(1 < 1 ∨ 1 < 1)),
      if_pos (rfl : NEW_CAMPAIGNS.ACCOUNT_NAME = NEW_CAMPAIGNS.ACCOUNT_NAME)]
    by_cases hcv : getCellValueFromRowData sheet row NEW_CAMPAIGNS.CAMPAIGN_NAME = ""
    · rw [if_neg (by simp [hcv])]
      exact ⟨prev, rfl⟩
    · obtain ⟨m, hm⟩ := Option.isSome_iff_exists.mp (hpre.resolve_left hcv)
      rw [if_pos hcv, jsGetObj_of_jsFind prev oldValue m hm, exceptOk_bind]
      exact ⟨_, rfl⟩
  · intro value oldValue row lastRowChanged sheet prev hpre
    exact ⟨_, addNewCampaign_campaignBranch_call value oldValue row lastRowChanged sheet
      prev hpre⟩
  · intro value oldValue row lastRowChanged column nCols nRows sheet prev hcol hmulti
    rw [addNewAssetGroupsUserEditsIntoProperty, if_pos hcol, if_pos hmulti]
  · intro value oldValue row lastRowChanged sheet prev hsome
    obtain ⟨mc, hmc⟩ := Option.isSome_iff_exists.mp hsome
    rw [addNewAssetGroupsUserEditsIntoProperty,
      if_pos (Nat.le_refl NEW_ASSET_GROUPS.ASSET_GROUP_NAME),
      if_neg (by decide : ¬(1 < 1 ∨ 1 < 1)),
      if_pos (rfl : NEW_ASSET_GROUPS.ASSET_GROUP_NAME = NEW_ASSET_GROUPS.ASSET_GROUP_NAME)]
    by_cases hcond : oldValue ≠ "" ∧
        ((jsFind prev (getCellValueFromRowData sheet row NEW_ASSET_GROUPS.ACCOUNT_NAME)).bind
          fun m => jsFind m
            (getCellValueFromRowData sheet row NEW_ASSET_GROUPS.CAMPAIGN_NAME)).isSome
    · rw [if_pos hcond]
      simp only [jsGetObj_jsSet_self, exceptOk_bind]
      exact ⟨_, rfl⟩
    · rw [if_neg hcond]
      simp only [jsGetObj_of_jsFind _ _ mc hmc, exceptOk_bind]
      exact ⟨_, rfl⟩
  · intro value oldValue row lastRowChanged sheet prev mc hne hmc hsome
    rw [addNewAssetGroupsUserEditsIntoProperty,
      if_pos (by decide : NEW_ASSET_GROUPS.CAMPAIGN_NAME ≤ NEW_ASSET_GROUPS.ASSET_GROUP_NAME),
      if_neg (by decide : ¬(1 < 1 ∨ 1 < 1)),
      if_neg (by decide :
        ¬(NEW_ASSET_GROUPS.CAMPAIGN_NAME = NEW_ASSET_GROUPS.ASSET_GROUP_NAME))]
    by_cases hag : getCellValueFromRowData sheet row NEW_ASSET_GROUPS.ASSET_GROUP_NAME = ""
    · rw [if_neg (fun hc => hc.2.2 hag),
        if_neg (fun hc => absurd hc.1
          (by decide : ¬(NEW_ASSET_GROUPS.CAMPAIGN_NAME = NEW_ASSET_GROUPS.ACCOUNT_NAME)))]
      exact ⟨prev, rfl⟩
    · rw [if_pos ⟨rfl, hne, hag⟩]
      by_cases hval : ((jsFind prev
          (getCellValueFromRowData sheet row NEW_ASSET_GROUPS.ACCOUNT_NAME)).bind
            fun m => jsFind m value).isSome
      · rw [if_pos hval]
        obtain ⟨lo, hlo⟩ := Option.isSome_iff_exists.mp hsome
        simp only [exceptOk_bind, jsGetObj_of_jsFind _ _ mc hmc, hlo]
        cases hidx : List.indexOf?
            (getCellValueFromRowData sheet row NEW_ASSET_GROUPS.ASSET_GROUP_NAME) lo <;>
          exact ⟨_, rfl⟩
      · rw [if_neg hval]
        simp only [jsGetObj_of_jsFind _ _ mc hmc, exceptOk_bind, jsGetObj_jsSet_self]
        by_cases hvo : value = oldValue
        · simp only [← hvo, jsFind_jsSet_self]
          exact ⟨_, rfl⟩
        · simp only [jsFind_jsSet_ne _ _ _ _ hvo]
          obtain ⟨lo, hlo⟩ := Option.isSome_iff_exists.mp hsome
          simp only [hlo]
          cases hidx : List.indexOf?
              (getCellValueFromRowData sheet row NEW_ASSET_GROUPS.ASSET_GROUP_NAME) lo <;>
            exact ⟨_, rfl⟩
  · intro value oldValue row lastRowChanged sheet prev hne hval hsome
    rw [addNewAssetGroupsUserEditsIntoProperty,
      if_pos (by decide : NEW_ASSET_GROUPS.ACCOUNT_NAME ≤ NEW_ASSET_GROUPS.ASSET_GROUP_NAME),
      if_neg (by decide : ¬(1 < 1 ∨ 1 < 1)),
      if_neg (by decide :
        ¬(NEW_ASSET_GROUPS.ACCOUNT_NAME = NEW_ASSET_GROUPS.ASSET_GROUP_NAME)),
      if_neg (fun hc => absurd hc.1
        (by decide : ¬(NEW_ASSET_GROUPS.ACCOUNT_NAME = NEW_ASSET_GROUPS.CAMPAIGN_NAME)))]
    by_cases hag : getCellValueFromRowData sheet row NEW_ASSET_GROUPS.ASSET_GROUP_NAME = ""
    · rw [if_neg (fun hc => hc.2.2 hag)]
      exact ⟨prev, rfl⟩
    · rw [if_pos ⟨rfl, hne, hag⟩]
      obtain ⟨mv, hmv⟩ := Option.isSome_iff_exists.mp hval
      by_cases hvc : ((jsFind prev value).bind fun m => jsFind m
          (getCellValueFromRowData sheet row NEW_ASSET_GROUPS.CAMPAIGN_NAME)).isSome
      · rw [if_pos hvc]
        obtain ⟨lo, hlo⟩ := Option.isSome_iff_exists.mp hsome
        simp only [exceptOk_bind, hlo]
        cases hidx : List.indexOf?
            (getCellValueFromRowData sheet row NEW_ASSET_GROUPS.ASSET_GROUP_NAME) lo <;>
          exact ⟨_, rfl⟩
      · rw [if_neg hvc]
        simp only [jsGetObj_of_jsFind _ _ mv hmv, exceptOk_bind]
        by_cases hvo : value = oldValue
        · simp only [← hvo, jsFind_jsSet_self, optSome_bind]
          exact ⟨_, rfl⟩
        · simp only [jsFind_jsSet_ne _ _ _ _ hvo]
          obtain ⟨lo, hlo⟩ := Option.isSome_iff_exists.mp hsome
          simp only [hlo]
          cases hidx : List.indexOf?
              (getCellValueFromRowData sheet row NEW_ASSET_GROUPS.ASSET_GROUP_NAME) lo <;>
            exact ⟨_, rfl⟩

/-- Witness for C4 (amended): every completion conjunct evaluated at a
concrete input satisfying its precondition, and the multi-cell
`addNewAssetGroupsUserEditsIntoProperty` branch failing concretely. -/
theorem indexOps_completion_witness :
    updateUploadedValuesIntoProperty [] [] [] = Except.ok (updateUploadedF [] [] []) ∧
      addNewCampaignUserEditsIntoProperty "v" "" 6 6 1 2 1 [] [] =
        Except.ok (jsSpread [] (editCampaignValuesThroughPullingRowData 6 6 []
          NEW_CAMPAIGNS.CAMPAIGN_NAME NEW_CAMPAIGNS.ACCOUNT_NAME)) ∧
      (addNewCampaignUserEditsIntoProperty "v" "o" 6 6 NEW_CAMPAIGNS.ACCOUNT_NAME 1 1
        [] []).toOption.isSome = true ∧
      (addNewCampaignUserEditsIntoProperty "v" "" 6 6 NEW_CAMPAIGNS.CAMPAIGN_NAME 1 1
        [] []).toOption.isSome = true ∧
      addNewAssetGroupsUserEditsIntoProperty "v" "" 6 6 2 2 1 [] [] =
        Except.error "ReferenceError: NewAssetGroups is not defined" ∧
      (addNewAssetGroupsUserEditsIntoProperty "G" "" 6 6 NEW_ASSET_GROUPS.ASSET_GROUP_NAME
        1 1 [[], [], [], [], [], ["", "", "C", "B", "G"]]
        [("C", [])]).toOption.isSome = true ∧
      (addNewAssetGroupsUserEditsIntoProperty "new" "old" 6 6 NEW_ASSET_GROUPS.CAMPAIGN_NAME
        1 1 [[], [], [], [], [], ["", "", "C", "B", "G"]]
        [("C", [("old", ["G"])])]).toOption.isSome = true ∧
      (addNewAssetGroupsUserEditsIntoProperty "newC" "oldC" 6 6 NEW_ASSET_GROUPS.ACCOUNT_NAME
        1 1 [[], [], [], [], [], ["", "", "C", "B", "G"]]
        [("newC", []), ("oldC", [("B", ["G"])])]).toOption.isSome = true := by
  refine ⟨indexOps_completion.1 [] [] [],
    indexOps_completion.2.1 "v" "" 6 6 1 2 1 [] [] (by decide) (Or.inl (by decide)),
    ?_, ?_, indexOps_completion.2.2.2.2.1 "v" "" 6 6 2 2 1 [] [] (by decide)
      (Or.inl (by decide)), ?_, ?_, ?_⟩
  · obtain ⟨i, hi⟩ := indexOps_completion.2.2.1 "v" "o" 6 6 [] [] (Or.inl (by decide))
    rw [hi]; rfl
  · obtain ⟨i, hi⟩ := indexOps_completion.2.2.2.1 "v" "" 6 6 [] [] (Or.inl rfl)
    rw [hi]; rfl
  · obtain ⟨i, hi⟩ := indexOps_completion.2.2.2.2.2.1 "G" "" 6 6
      [[], [], [], [], [], ["", "", "C", "B", "G"]] [("C", [])] (by decide)
    rw [hi]; rfl
  · obtain ⟨i, hi⟩ := indexOps_completion.2.2.2.2.2.2.1 "new" "old" 6 6
      [[], [], [], [], [], ["", "", "C", "B", "G"]] [("C", [("old", ["G"])])]
      [("old", ["G"])] (by decide) (by decide) (by decide)
    rw [hi]; rfl
  · obtain ⟨i, hi⟩ := indexOps_completion.2.2.2.2.2.2.2 "newC" "oldC" 6 6
      [[], [], [], [], [], ["", "", "C", "B", "G"]] [("newC", []), ("oldC", [("B", ["G"])])]
      (by decide) (by decide) (by decide)
    rw [hi]; rfl

/-- C8.  When the OAuth service has access, `pubsub` performs exactly one
HTTP POST — to the topic's publish URL, with a Bearer authorization
header, whose JSON payload carries a single message with attributes
`attr` and the base64 encoding of `data` — and returns the HTTP
response; when the service has no access it returns `undefined` and
performs no HTTP call at all. -/
theorem pubsub_spec (service : OAuthService) (project topic : String)
    (attr : List (String × String)) (data : String) :
    (service.hasAccess = true →
      (pubsub service project topic attr data).1 =
        [PubsubEffect.httpPost
          { url := pubsubPublishUrl project topic
            method := "POST"
            contentType := "application/json"
            muteHttpExceptions := true
            payload := pubsubMessageJson attr data
            authHeader := "Bearer " ++ service.accessToken }] ∧
      (pubsub service project topic attr data).2 =
        some (urlFetch
          { url := pubsubPublishUrl project topic
            method := "POST"
            contentType := "application/json"
            muteHttpExceptions := true
            payload := pubsubMessageJson attr data
            authHeader := "Bearer " ++ service.accessToken })) ∧
      (service.hasAccess = false →
        (pubsub service project topic attr data).2 = none ∧
        ((pubsub service project topic attr data).1.filter isHttpPost) = []) := by
  constructor
  · intro hacc
    rw [pubsub, if_neg (by rw [hacc]; exact Bool.noConfusion)]
    exact ⟨rfl, rfl⟩
  · intro hacc
    rw [pubsub, if_pos hacc]
    exact ⟨rfl, rfl⟩

/-- Witness for C8 at a concrete authorized and a concrete unauthorized
service. -/
theorem pubsub_spec_witness :
    (pubsub ⟨true, "tok", "auth"⟩ "proj" "top" [("id", "madmax")] "REFRESH").1 =
      [PubsubEffect.httpPost
        { url := pubsubPublishUrl "proj" "top"
          method := "POST"
          contentType := "application/json"
          muteHttpExceptions := true
          payload := pubsubMessageJson [("id", "madmax")] "REFRESH"
          authHeader := "Bearer " ++ "tok" }] ∧
      (pubsub ⟨false, "tok", "auth"⟩ "proj" "top" [("id", "madmax")] "REFRESH").2 = none ∧
      ((pubsub ⟨false, "tok", "auth"⟩ "proj" "top" [("id", "madmax")] "REFRESH").1.filter
        isHttpPost) = [] :=
  ⟨(pubsub_spec ⟨true, "tok", "auth"⟩ "proj" "top" [("id", "madmax")] "REFRESH" |>.1 rfl).1,
    (pubsub_spec ⟨false, "tok", "auth"⟩ "proj" "top" [("id", "madmax")] "REFRESH" |>.2 rfl).1,
    (pubsub_spec ⟨false, "tok", "auth"⟩ "proj" "top" [("id", "madmax")] "REFRESH" |>.2 rfl).2⟩

end Madpmax

